import Mathlib

/-!
Verification of the aries-acapy-plugin-kafka-events repository.

This file shallowly embeds the repository's four Python source files:

* `deliverer/deliverer/__init__.py` — the queue payload model
  (`KafkaQueuePayload`, `Service`, `OutboundPayload`);
* `http_kafka_relay/relay/__init__.py` — the HTTP-to-Kafka relay
  (`b64_to_bytes`, `_recipients_from_packed_message`, `receive_message`);
* `kafka_queue/__init__.py` — the fixed-pattern event bridge
  (`handle_event`, the inbound `consume` loop);
* `kafka_queue/events/__init__.py` — the configurable event bridge
  (`_derive_category`, `handle_event`).

Python strings are modelled as `List Char` (unicode code points), Python
bytes as `List Nat` (byte values, < 256 for well-formed values).  Python
exceptions are modelled by the `PyErr` inductive and `Except`.  The parts
of the Python standard library that the sources call (json, base64,
urllib.parse, string.Template, str methods) are embedded as executable
Lean functions below, faithful to CPython semantics on the inputs the
theorems quantify over; known simplifications are noted in doc comments
at each definition.
-/

/-- Convenience: the character list of a string literal. -/
def chars (s : String) : List Char := s.data

/-- Python exception classes raised by the embedded code.  Only the
distinctions the sources rely on are kept: `valueError` (which in CPython
also covers `JSONDecodeError` and `binascii.Error` subclasses — the latter
kept separate here as `binasciiError` since the sources never catch it
specifically), `keyError`, `typeError`, `indexError`, `assertionError`
and the unicode codec errors.  `kafkaError` stands for any error raised
by the broker client during a publish. -/
inductive PyErr where
  | valueError (msg : String)
  | keyError (key : List Char)
  | typeError
  | indexError
  | assertionError
  | unicodeDecodeError
  | unicodeEncodeError
  | binasciiError
  | valueErrorTemplate
  | kafkaError
deriving DecidableEq, Repr

/-! ## UTF-8 encoding and decoding

Models CPython `str.encode("utf8")` and `bytes.decode("utf8")`. -/

/-- UTF-8 encoding of a single code point (1–4 bytes).  `Char` only holds
unicode scalar values, exactly the code points CPython will encode. -/
def utf8EncodeChar (c : Char) : List Nat :=
  let n := c.toNat
  if n < 0x80 then [n]
  else if n < 0x800 then [0xC0 + n / 0x40, 0x80 + n % 0x40]
  else if n < 0x10000 then
    [0xE0 + n / 0x1000, 0x80 + n / 0x40 % 0x40, 0x80 + n % 0x40]
  else
    [0xF0 + n / 0x40000, 0x80 + n / 0x1000 % 0x40,
     0x80 + n / 0x40 % 0x40, 0x80 + n % 0x40]

/-- Models `str.encode("utf8")`. -/
def utf8Encode (s : List Char) : List Nat := (s.map utf8EncodeChar).flatten

/-- Is `b` a UTF-8 continuation byte? -/
def utf8Cont (b : Nat) : Bool := 0x80 ≤ b && b ≤ 0xBF

/-- Decode one UTF-8 sequence: the scalar value and the remaining bytes.
Overlong encodings and encoded surrogates are rejected, as CPython
rejects them. -/
def utf8DecodeStep (b : Nat) (rest : List Nat) : Option (Nat × List Nat) :=
  if b < 0x80 then some (b, rest)
  else if b < 0xC2 then none
  else if b ≤ 0xDF then
    match rest with
    | b2 :: rest2 =>
      if utf8Cont b2 then some ((b - 0xC0) * 0x40 + (b2 - 0x80), rest2) else none
    | [] => none
  else if b ≤ 0xEF then
    match rest with
    | b2 :: b3 :: rest3 =>
      if utf8Cont b2 && utf8Cont b3 &&
          !(b = 0xE0 && b2 < 0xA0) && !(b = 0xED && 0x9F < b2) then
        some ((b - 0xE0) * 0x1000 + (b2 - 0x80) * 0x40 + (b3 - 0x80), rest3)
      else none
    | _ => none
  else if b ≤ 0xF4 then
    match rest with
    | b2 :: b3 :: b4 :: rest4 =>
      if utf8Cont b2 && utf8Cont b3 && utf8Cont b4 &&
          !(b = 0xF0 && b2 < 0x90) && !(b = 0xF4 && 0x8F < b2) then
        some ((b - 0xF0) * 0x40000 + (b2 - 0x80) * 0x1000 +
          (b3 - 0x80) * 0x40 + (b4 - 0x80), rest4)
      else none
    | _ => none
  else none

/-- Decode a UTF-8 byte sequence; the fuel equals the remaining length
(every sequence consumes at least one byte), so the 0 case is
unreachable from `utf8Decode`. -/
def utf8DecodeGo : Nat → List Nat → Option (List Char)
  | _, [] => some []
  | 0, _ => none
  | f+1, b :: rest =>
    match utf8DecodeStep b rest with
    | some (n, rest2) => (utf8DecodeGo f rest2).map (Char.ofNat n :: ·)
    | none => none

/-- Models `bytes.decode("utf8")`: `none` on malformed input
(CPython raises `UnicodeDecodeError`). -/
def utf8Decode (bs : List Nat) : Option (List Char) := utf8DecodeGo bs.length bs

/-- Models `str.encode("ascii")`: fails (CPython `UnicodeEncodeError`)
when a code point is ≥ 128. -/
def asciiEncode (s : List Char) : Option (List Nat) :=
  if s.all (fun c => c.toNat < 0x80) then some (s.map Char.toNat) else none

/-- Models `bytes.decode("ascii")`: fails (CPython `UnicodeDecodeError`)
when a byte is ≥ 128. -/
def asciiDecode (bs : List Nat) : Option (List Char) :=
  if bs.all (fun b => b < 0x80) then some (bs.map Char.ofNat) else none

/-! ## URL-safe base64

Models `base64.urlsafe_b64encode` / `base64.urlsafe_b64decode` as used by
the sources.  The decoder accepts both the URL-safe alphabet (`-`, `_`)
and the standard one (`+`, `/`), because `urlsafe_b64decode` merely
translates `-_` to `+/` before a standard decode.  CPython's lenient
skipping of non-alphabet characters and its tolerance of data after a
padding block are not modelled: such characters make the decoder fail
here.  All inputs appearing in the theorems below are clean base64. -/

/-- The URL-safe base64 alphabet, index = sextet value. -/
def ALPHA64 : List Char :=
  chars "ABCDEFGHIJKLMNOPQRSTUVWXYZabcdefghijklmnopqrstuvwxyz0123456789-_"

/-- Sextet value to alphabet character. -/
def encB64 (s : Nat) : Char := ALPHA64.getD s 'A'

/-- Alphabet character to sextet value (also accepting `+` and `/`). -/
def decB64 (c : Char) : Option Nat :=
  if c = '+' then some 62 else if c = '/' then some 63 else ALPHA64.findIdx? (· = c)

/-- Models `base64.urlsafe_b64encode` (always emits `=` padding). -/
def b64EncodeUrlsafe : List Nat → List Char
  | [] => []
  | [b0] => [encB64 (b0 / 4), encB64 (b0 % 4 * 16), '=', '=']
  | [b0, b1] => [encB64 (b0 / 4), encB64 (b0 % 4 * 16 + b1 / 16), encB64 (b1 % 16 * 4), '=']
  | b0 :: b1 :: b2 :: rest =>
    encB64 (b0 / 4) :: encB64 (b0 % 4 * 16 + b1 / 16) ::
      encB64 (b1 % 16 * 4 + b2 / 64) :: encB64 (b2 % 64) :: b64EncodeUrlsafe rest

/-- Models `base64.urlsafe_b64decode` on an already ASCII-checked string:
decodes whole 4-character blocks, allowing `=`-padding only in the final
block; `none` models `binascii.Error`. -/
def b64DecodeCore : List Char → Option (List Nat)
  | c1 :: c2 :: c3 :: c4 :: rest =>
    match decB64 c1, decB64 c2 with
    | some s1, some s2 =>
      if c3 = '=' then
        if c4 = '=' ∧ rest = [] then some [s1 * 4 + s2 / 16] else none
      else
        match decB64 c3 with
        | some s3 =>
          if c4 = '=' then
            if rest = [] then some [s1 * 4 + s2 / 16, s2 % 16 * 16 + s3 / 4] else none
          else
            match decB64 c4 with
            | some s4 =>
              (b64DecodeCore rest).map
                (fun bs => (s1 * 4 + s2 / 16) :: (s2 % 16 * 16 + s3 / 4) :: (s3 % 4 * 64 + s4) :: bs)
            | none => none
        | none => none
    | _, _ => none
  | [] => some []
  | _ => none

/-- Models the relay's `b64_to_bytes(val, urlsafe=True)`
(`http_kafka_relay/relay/__init__.py` lines 55–64) applied to a `str`:
ASCII-encode the string, restore missing `=` padding up to a multiple of
4, then URL-safe base64 decode. -/
def b64_to_bytes_urlsafe (s : List Char) : Except PyErr (List Nat) :=
  match asciiEncode s with
  | none => .error .unicodeEncodeError
  | some _ =>
    let missing := s.length % 4
    let padded := if missing = 0 then s else s ++ List.replicate (4 - missing) '='
    match b64DecodeCore padded with
    | some bs => .ok bs
    | none => .error .binasciiError

/-! ## JSON values

A mutual inductive (rather than one nested in `List`) so that all
functions over it are structural recursions the kernel can evaluate.
Numbers are modelled as integers only: none of the JSON the sources
produce or the theorems quantify over involves fractions or exponents,
and the embedded parser rejects them. -/

mutual
inductive Json where
  | null
  | bool (b : Bool)
  | num (n : Int)
  | str (s : List Char)
  | arr (xs : JsonArr)
  | obj (kvs : JsonObj)

inductive JsonArr where
  | nil
  | cons (hd : Json) (tl : JsonArr)

inductive JsonObj where
  | nil
  | cons (k : List Char) (v : Json) (tl : JsonObj)
end

/-- Lookup in a JSON object (Python dict): first binding of the key. -/
def objLookup : JsonObj → List Char → Option Json
  | .nil, _ => none
  | .cons k v tl, key => if k = key then some v else objLookup tl key

/-- Does the object bind the key? -/
def objHasKey (o : JsonObj) (key : List Char) : Bool := (objLookup o key).isSome

/-- Python dict assignment `d[key] = v`: overwrite in place (keeping the
key's position) when present, append otherwise. -/
def objSet : JsonObj → List Char → Json → JsonObj
  | .nil, key, v => .cons key v .nil
  | .cons k w tl, key, v =>
    if k = key then .cons k v tl else .cons k w (objSet tl key v)

/-- Python subscription `j[key]` on a decoded JSON value: `KeyError` on a
dict without the key, `TypeError` on any non-dict value (lists reject
string indices, strings and numbers reject subscription by a string). -/
def getItem (j : Json) (key : List Char) : Except PyErr Json :=
  match j with
  | .obj o =>
    match objLookup o key with
    | some v => .ok v
    | none => .error (.keyError key)
  | _ => .error .typeError

/-- Hexadecimal digit character (lowercase), as `json.dumps` emits. -/
def hexDigit (d : Nat) : Char := if d < 10 then Char.ofNat (48 + d) else Char.ofNat (87 + d)

/-- Four-digit lowercase hex rendering of `n % 0x10000`. -/
def hex4 (n : Nat) : List Char :=
  [hexDigit (n / 0x1000 % 16), hexDigit (n / 0x100 % 16), hexDigit (n / 16 % 16), hexDigit (n % 16)]

/-- `json.dumps` escaping of one string character with the default
`ensure_ascii=True`: short escapes for the two-character sequences,
`\u00XX` for other control characters, `\uXXXX` (with a surrogate pair
beyond the BMP) for non-ASCII. -/
def escChar (c : Char) : List Char :=
  if c = '"' then ['\\', '"']
  else if c = '\\' then ['\\', '\\']
  else if c = Char.ofNat 8 then ['\\', 'b']
  else if c = Char.ofNat 9 then ['\\', 't']
  else if c = Char.ofNat 10 then ['\\', 'n']
  else if c = Char.ofNat 12 then ['\\', 'f']
  else if c = Char.ofNat 13 then ['\\', 'r']
  else if c.toNat < 0x20 then '\\' :: 'u' :: hex4 c.toNat
  else if c.toNat < 0x7F then [c]
  else if c.toNat < 0x10000 then '\\' :: 'u' :: hex4 c.toNat
  else
    ('\\' :: 'u' :: hex4 (0xD800 + (c.toNat - 0x10000) / 0x400)) ++
      ('\\' :: 'u' :: hex4 (0xDC00 + (c.toNat - 0x10000) % 0x400))

/-- `json.dumps` rendering of a string body (without the quotes). -/
def escapeString (s : List Char) : List Char := (s.map escChar).flatten

/-- Decimal digits of a positive natural number, most significant first;
fueled so the kernel can evaluate it (`n` itself bounds the digit count). -/
def natCharsGo : Nat → Nat → List Char
  | 0, _ => []
  | f+1, n => if n = 0 then [] else natCharsGo f (n / 10) ++ [Char.ofNat (48 + n % 10)]

/-- Decimal digits of a natural number, most significant first
(`str(n)` for a non-negative Python int). -/
def natChars (n : Nat) : List Char := if n = 0 then ['0'] else natCharsGo (n + 1) n

/-- `str(n)` for a Python int. -/
def intChars (n : Int) : List Char :=
  if n < 0 then '-' :: natChars n.natAbs else natChars n.toNat

mutual
/-- `json.dumps(value)` with CPython's defaults: `ensure_ascii=True` and
item/key separators `", "` and `": "`. -/
def jsonDumps : Json → List Char
  | .null => chars "null"
  | .bool true => chars "true"
  | .bool false => chars "false"
  | .num n => intChars n
  | .str s => '"' :: escapeString s ++ ['"']
  | .arr xs => '[' :: jsonDumpsArr xs ++ [']']
  | .obj kvs => '\x7b' :: jsonDumpsObj kvs ++ ['\x7d']

/-- Array elements, `", "`-separated. -/
def jsonDumpsArr : JsonArr → List Char
  | .nil => []
  | .cons x .nil => jsonDumps x
  | .cons x (.cons y tl) => jsonDumps x ++ ',' :: ' ' :: jsonDumpsArr (.cons y tl)

/-- Object members, `", "`-separated, keys quoted, `": "` after each key. -/
def jsonDumpsObj : JsonObj → List Char
  | .nil => []
  | .cons k v .nil => '"' :: escapeString k ++ '"' :: ':' :: ' ' :: jsonDumps v
  | .cons k v (.cons k2 v2 tl) =>
    ('"' :: escapeString k ++ '"' :: ':' :: ' ' :: jsonDumps v) ++
      ',' :: ' ' :: jsonDumpsObj (.cons k2 v2 tl)
end

/-! ## JSON parsing

Models `json.loads` (strict mode, CPython defaults) closely enough for
every input the theorems below touch.  Simplifications, each noted where
it matters: numbers are parsed as integers and any fraction or exponent
makes the parse fail; a `\uXXXX` escape is decoded without combining
surrogate pairs; a leading-zero check on numbers is not performed. -/

/-- JSON whitespace accepted between tokens by `json.loads`. -/
def isJsonWs (c : Char) : Bool := c = ' ' || c = Char.ofNat 9 || c = Char.ofNat 10 || c = Char.ofNat 13

/-- Drop leading JSON whitespace. -/
def skipWs (l : List Char) : List Char := l.dropWhile isJsonWs

/-- Value of the short escapes `\" \\ \/ \b \f \n \r \t`. -/
def escMap (c : Char) : Option Char :=
  if c = '"' then some '"'
  else if c = '\\' then some '\\'
  else if c = '/' then some '/'
  else if c = 'b' then some (Char.ofNat 8)
  else if c = 'f' then some (Char.ofNat 12)
  else if c = 'n' then some (Char.ofNat 10)
  else if c = 'r' then some (Char.ofNat 13)
  else if c = 't' then some (Char.ofNat 9)
  else none

/-- Hex digit value, accepting both cases. -/
def hexVal (c : Char) : Option Nat :=
  if '0' ≤ c ∧ c ≤ '9' then some (c.toNat - 48)
  else if 'a' ≤ c ∧ c ≤ 'f' then some (c.toNat - 87)
  else if 'A' ≤ c ∧ c ≤ 'F' then some (c.toNat - 55)
  else none

/-- Value of a `\\uXXXX` escape's four hex digits. -/
def hexQuad (h1 h2 h3 h4 : Char) : Option Nat :=
  match hexVal h1, hexVal h2, hexVal h3, hexVal h4 with
  | some a, some b, some c, some d => some (a * 0x1000 + b * 0x100 + c * 16 + d)
  | _, _, _, _ => none

/-- One step of JSON string-body parsing: `some (some c, r)` decodes one
content character, `some (none, r)` is the closing quote, `none` is a
parse error.  Control characters are rejected (`json.loads` strict
mode); a `\\uXXXX` escape is decoded without combining surrogate
pairs. -/
def parseStringStep : List Char → Option (Option Char × List Char)
  | [] => none
  | c :: r =>
    if c = '"' then some (none, r)
    else if c = '\\' then
      match r with
      | [] => none
      | e :: r2 =>
        if e = 'u' then
          match r2 with
          | h1 :: h2 :: h3 :: h4 :: r3 =>
            (hexQuad h1 h2 h3 h4).map (fun n => (some (Char.ofNat n), r3))
          | _ => none
        else (escMap e).map (fun ec => (some ec, r2))
    else if c.toNat < 0x20 then none
    else some (some c, r)

/-- String-body parsing loop; the fuel bounds the remaining length
(every step consumes at least one character), so the 0 case is
unreachable from `parseStringBody`. -/
def parseStringGo : Nat → List Char → Option (List Char × List Char)
  | 0, _ => none
  | f+1, l =>
    match parseStringStep l with
    | some (some c, r) => (parseStringGo f r).map (fun p => (c :: p.1, p.2))
    | some (none, r) => some ([], r)
    | none => none

/-- Parse a JSON string body after the opening quote, returning the
decoded characters and the remaining input after the closing quote. -/
def parseStringBody (l : List Char) : Option (List Char × List Char) :=
  parseStringGo l.length l

/-- Accumulated value of a decimal digit run. -/
def digitsVal (ds : List Char) : Nat := ds.foldl (fun a c => 10 * a + (c.toNat - 48)) 0

/-- The digit run of a JSON number (fraction or exponent: parse fails,
see the section comment). -/
def parseNatCore (l : List Char) : Option (Nat × List Char) :=
  let ds := l.takeWhile Char.isDigit
  let rest := l.dropWhile Char.isDigit
  if ds = [] then none
  else if rest.headD ' ' = '.' ∨ rest.headD ' ' = 'e' ∨ rest.headD ' ' = 'E' then none
  else some (digitsVal ds, rest)

/-- Parse an integer JSON number, continued (see `parseNatCore` for the
digit run; a fraction or exponent makes the parse fail, see the section
comment). -/
def parseNumber (l : List Char) : Option (Int × List Char) :=
  match l with
  | [] => none
  | c :: r =>
    if c = '-' then (parseNatCore r).map (fun p => (-(p.1 : Int), p.2))
    else (parseNatCore (c :: r)).map (fun p => ((p.1 : Int), p.2))

/-- `some r` when `lit` is a prefix of `l` with remainder `r`. -/
def expectLit (lit l : List Char) : Option (List Char) :=
  if lit.isPrefixOf l then some (l.drop lit.length) else none

/-- Skip whitespace and require a colon. -/
def expectColon (l : List Char) : Option (List Char) :=
  match skipWs l with
  | ':' :: r => some r
  | _ => none

mutual
/-- Parse one JSON value (after skipping leading whitespace).  The fuel
only bounds recursion; `parseJsonTop` supplies enough for any input. -/
def parseValue : Nat → List Char → Option (Json × List Char)
  | 0, _ => none
  | f+1, l =>
    match skipWs l with
    | [] => none
    | c :: r =>
      if c = '\x7b' then parseMembers f r
      else if c = '[' then parseElements f r
      else if c = '"' then (parseStringBody r).map (fun p => (.str p.1, p.2))
      else if c = 'n' then (expectLit (chars "ull") r).map (fun r2 => (.null, r2))
      else if c = 't' then (expectLit (chars "rue") r).map (fun r2 => (.bool true, r2))
      else if c = 'f' then (expectLit (chars "alse") r).map (fun r2 => (.bool false, r2))
      else (parseNumber (c :: r)).map (fun p => (.num p.1, p.2))

/-- Parse object members after the opening brace. -/
def parseMembers : Nat → List Char → Option (Json × List Char)
  | 0, _ => none
  | f+1, l =>
    match skipWs l with
    | [] => none
    | c :: r =>
      if c = '\x7d' then some (.obj .nil, r)
      else if c = '"' then
        (parseStringBody r).bind (fun pk =>
          (expectColon pk.2).bind (fun r3 =>
            (parseValue f r3).bind (fun pv =>
              (parseMembersRest f pv.2).map (fun p => (Json.obj (.cons pk.1 pv.1 p.1), p.2)))))
      else none

/-- Parse `, "key": value` continuations or the closing brace. -/
def parseMembersRest : Nat → List Char → Option (JsonObj × List Char)
  | 0, _ => none
  | f+1, l =>
    match skipWs l with
    | [] => none
    | c :: r =>
      if c = '\x7d' then some (.nil, r)
      else if c = ',' then
        match skipWs r with
        | '"' :: r1 =>
          (parseStringBody r1).bind (fun pk =>
            (expectColon pk.2).bind (fun r3 =>
              (parseValue f r3).bind (fun pv =>
                (parseMembersRest f pv.2).map (fun p => (JsonObj.cons pk.1 pv.1 p.1, p.2)))))
        | _ => none
      else none

/-- Parse array elements after the opening bracket. -/
def parseElements : Nat → List Char → Option (Json × List Char)
  | 0, _ => none
  | f+1, l =>
    match skipWs l with
    | [] => none
    | c :: r =>
      if c = ']' then some (.arr .nil, r)
      else
        (parseValue f l).bind (fun pv =>
          (parseElementsRest f pv.2).map (fun p => (Json.arr (.cons pv.1 p.1), p.2)))

/-- Parse `, value` continuations or the closing bracket. -/
def parseElementsRest : Nat → List Char → Option (JsonArr × List Char)
  | 0, _ => none
  | f+1, l =>
    match skipWs l with
    | [] => none
    | c :: r =>
      if c = ']' then some (.nil, r)
      else if c = ',' then
        (parseValue f r).bind (fun pv =>
          (parseElementsRest f pv.2).map (fun p => (JsonArr.cons pv.1 p.1, p.2)))
      else none
end

/-- Models `json.loads` on a string: parse one value, then require only
whitespace to follow. -/
def parseJsonTop (l : List Char) : Option Json :=
  match parseValue (l.length + 1) l with
  | some (j, rest) => if skipWs rest = [] then some j else none
  | none => none

/-- Models `json.loads` on bytes: UTF-8 decode, then parse.  Both failure
modes are `ValueError` subclasses in CPython (`UnicodeDecodeError`,
`JSONDecodeError`); they are kept distinct here. -/
def loads (bs : List Nat) : Except PyErr Json :=
  match utf8Decode bs with
  | none => .error .unicodeDecodeError
  | some cs =>
    match parseJsonTop cs with
    | some j => .ok j
    | none => .error (.valueError "JSONDecodeError")

/-! ## Queue payload model (`deliverer/deliverer/__init__.py`)

`KafkaQueuePayload.to_bytes` renders the pydantic model as JSON text
(bytes fields URL-safe-base64 encoded by the configured encoder) and
UTF-8 encodes it; `from_bytes` parses JSON text and constructs the model,
running the `payload` validator.  The `_endpoint_scheme` private
attribute is set once in `__init__` from `urlparse(service.url).scheme`
and never mutated, so it is embedded as the derived function
`OutboundPayload.endpoint_scheme` of the stored `service.url`. -/

/-- A character allowed in a URL scheme by `urllib.parse`
(letters, digits, `+`, `-`, `.`). -/
def schemeChar (c : Char) : Bool := c.isAlpha || c.isDigit || c = '+' || c = '-' || c = '.'

/-- Models `urlparse(url).scheme`: the text before the first `:`,
lowercased, provided it is non-empty, starts with an ASCII letter and
contains only scheme characters; otherwise the empty string. -/
def urlScheme (url : List Char) : List Char :=
  match url.findIdx? (· = ':') with
  | some i =>
    if 0 < i ∧ (url.headD '0').isAlpha ∧ (url.take i).all schemeChar then
      (url.take i).map Char.toLower
    else []
  | none => []

/-- The `Service` model: a single `url` field, no validation. -/
structure Service where
  url : List Char
deriving DecidableEq, Repr

/-- The `OutboundPayload` model's stored fields: `service`, decoded
`payload` bytes, and `retries` (default 0). -/
structure OutboundPayload where
  service : Service
  payload : List Nat
  retries : Int
deriving DecidableEq, Repr

/-- The derived `endpoint_scheme` property (see the section comment). -/
def OutboundPayload.endpoint_scheme (p : OutboundPayload) : List Char :=
  urlScheme p.service.url

/-- The `decode_payload_to_bytes` pre-validator: `assert isinstance(v,
str)` (an `AssertionError`, surfacing as a pydantic validation error,
when the wire value is not a string), then `base64.urlsafe_b64decode`
with no padding repair. -/
def decode_payload_to_bytes (v : Json) : Except PyErr (List Nat) :=
  match v with
  | .str s =>
    match asciiEncode s with
    | none => .error (.valueError "string argument should contain only ASCII characters")
    | some _ =>
      match b64DecodeCore s with
      | some bs => .ok bs
      | none => .error .binasciiError
  | _ => .error .assertionError

/-- Constructing `OutboundPayload(**payload)` from a decoded JSON value:
keyword expansion requires a JSON object; `service` must parse as a
`Service` (pydantic's lenient str coercions for `url` and int coercions
for `retries` are not modelled — every input in the theorems uses the
exact JSON types the model itself emits); missing `retries` defaults
to 0; extra keys are ignored (pydantic default). -/
def outboundOfJson (j : Json) : Except PyErr OutboundPayload :=
  match j with
  | .obj o =>
    match objLookup o (chars "service") with
    | some (.obj so) =>
      match objLookup so (chars "url") with
      | some (.str u) =>
        match objLookup o (chars "payload") with
        | some pv =>
          match decode_payload_to_bytes pv with
          | .ok bs =>
            match objLookup o (chars "retries") with
            | some (.num n) => .ok ⟨⟨u⟩, bs, n⟩
            | none => .ok ⟨⟨u⟩, bs, 0⟩
            | some _ => .error (.valueError "ValidationError")
          | .error e => .error e
        | none => .error (.valueError "ValidationError")
      | _ => .error (.valueError "ValidationError")
    | _ => .error (.valueError "ValidationError")
  | _ => .error .typeError

/-- The JSON rendering of an `OutboundPayload` produced by pydantic's
`.json()`: fields in declaration order, `payload` URL-safe-base64
encoded by the configured `bytes` encoder. -/
def OutboundPayload.toJson (p : OutboundPayload) : Json :=
  .obj (.cons (chars "service") (.obj (.cons (chars "url") (.str p.service.url) .nil))
    (.cons (chars "payload") (.str (b64EncodeUrlsafe p.payload))
      (.cons (chars "retries") (.num p.retries) .nil)))

/-- `to_bytes`: `str.encode(self.json(), encoding="utf8")`. -/
def OutboundPayload.to_bytes (p : OutboundPayload) : List Nat :=
  utf8Encode (jsonDumps p.toJson)

/-- `from_bytes`: decode UTF-8, `json.loads`, construct the model. -/
def OutboundPayload.from_bytes (bs : List Nat) : Except PyErr OutboundPayload :=
  match utf8Decode bs with
  | none => .error .unicodeDecodeError
  | some cs =>
    match parseJsonTop cs with
    | none => .error (.valueError "JSONDecodeError")
    | some j => outboundOfJson j

/-! ## HTTP-to-Kafka relay (`http_kafka_relay/relay/__init__.py`) -/

/-- The inbound topic (`INBOUND_TOPIC`); the environment override is not
modelled, so this is the default `acapy-inbound-message`.  Every theorem
about the relay holds verbatim for any other topic constant. -/
def INBOUND_TOPIC : List Char := chars "acapy-inbound-message"

/-- A message handed to the broker producer. -/
structure PublishedMsg where
  topic : List Char
  value : List Nat
  key : Option (List Nat)
deriving DecidableEq, Repr

/-- The list comprehension `[recip["header"]["kid"] for recip in ...]`:
left-to-right, first subscription error aborts.  The raw JSON values are
returned; `",".join` later rejects non-strings. -/
def kidsOf : JsonArr → Except PyErr (List Json)
  | .nil => .ok []
  | .cons r tl =>
    match getItem r (chars "header") with
    | .error e => .error e
    | .ok h =>
      match getItem h (chars "kid") with
      | .error e => .error e
      | .ok k =>
        match kidsOf tl with
        | .error e => .error e
        | .ok rest => .ok (k :: rest)

/-- The string contents of a list of JSON values; `none` on the first
non-string. -/
def strsOf : List Json → Option (List (List Char))
  | [] => some []
  | j :: tl =>
    match j with
    | .str s => (strsOf tl).map (s :: ·)
    | _ => none

/-- `",".join(values)`: `TypeError` when any element is not a string. -/
def joinComma (ks : List Json) : Except PyErr (List Char) :=
  match strsOf ks with
  | some ss => .ok (List.intercalate [','] ss)
  | none => .error .typeError

/-- `_recipients_from_packed_message` (lines 67–82).  Only the two
`json.loads` calls sit inside `try` blocks that re-raise `ValueError`;
the `protected` subscription, the base64/ASCII decoding and the
`recipients` subscription are outside them, so their exceptions
propagate with their own classes.  Iterating a non-list `recipients`
value ends in a `TypeError` (strings and dicts yield strings whose
`["header"]` subscription fails; other values are not iterable). -/
def _recipients_from_packed_message (packed : List Nat) : Except PyErr (List Json) :=
  match loads packed with
  | .error _ => .error (.valueError "Invalid packed message")
  | .ok wrapper =>
    match getItem wrapper (chars "protected") with
    | .error e => .error e
    | .ok (.str ps) =>
      match b64_to_bytes_urlsafe ps with
      | .error e => .error e
      | .ok pb =>
        match asciiDecode pb with
        | none => .error .unicodeDecodeError
        | some recipsJson =>
          match parseJsonTop recipsJson with
          | none => .error (.valueError "Invalid packed message recipients")
          | some recipsOuter =>
            match getItem recipsOuter (chars "recipients") with
            | .error e => .error e
            | .ok (.arr rs) => kidsOf rs
            | .ok _ => .error .typeError
    | .ok _ => .error .typeError

/-- What one call of the `receive_message` handler did: the message
handed to `producer.send_and_wait` (if the call reached it), and either
the HTTP response `(status, body)` or the exception that escaped. -/
structure RelayOutcome where
  published : Option PublishedMsg
  response : Except PyErr (Nat × List Nat)
deriving Repr

/-- `receive_message` (lines 85–99).  `send` is the outcome
`producer.send_and_wait` would have (its exception propagates — the
relay has no handler for it).  The `LOGGER.info` f-string evaluates
`recips[0]` before the publish, so an empty joined key raises
`IndexError` first and nothing is published.  On success the handler
returns `Response(status_code=200)` — status 200, empty body. -/
def receive_message (send : Except PyErr Unit) (body : List Nat) : RelayOutcome :=
  match _recipients_from_packed_message body with
  | .error e => ⟨none, .error e⟩
  | .ok ks =>
    match joinComma ks with
    | .error e => ⟨none, .error e⟩
    | .ok joined =>
      let recips := utf8Encode joined
      if recips = [] then ⟨none, .error .indexError⟩
      else
        match send with
        | .ok _ => ⟨some ⟨INBOUND_TOPIC, body, some recips⟩, .ok (200, [])⟩
        | .error e => ⟨some ⟨INBOUND_TOPIC, body, some recips⟩, .error e⟩

/-! ## Fixed-pattern event bridge (`kafka_queue/__init__.py`) -/

/-- One step of Python's `str.replace(pat, rep)`: left-to-right,
non-overlapping.  The fuel equals the remaining string length (each step
consumes at least one character).  CPython's behavior for an empty
pattern (insert `rep` at every position) is not modelled: the sources
only replace `"::"` and `"-"`. -/
def replaceGo (pat rep : List Char) : Nat → List Char → List Char
  | _, [] => []
  | 0, s => s
  | f+1, c :: rest =>
    if pat ≠ [] ∧ pat.isPrefixOf (c :: rest) then
      rep ++ replaceGo pat rep f (List.drop (pat.length - 1) rest)
    else c :: replaceGo pat rep f rest

/-- Python `s.replace(pat, rep)` (non-empty `pat`). -/
def replacePy (s pat rep : List Char) : List Char := replaceGo pat rep s.length s

/-- A bus event as the handlers see it: `.topic` and `.payload` (a
key/value mapping for every event the runtime emits). -/
structure Event where
  topic : List Char
  payload : JsonObj

/-- `None` ↦ JSON `null`, a string ↦ a JSON string — how a
`settings.get("wallet.id")` result lands in a JSON payload. -/
def optStrJson : Option (List Char) → Json
  | some s => .str s
  | none => .null

/-- What one call of the fixed-pattern `handle_event` did:
the event's payload mapping after the handler ran (the handler assigns
`payload["wallet_id"]` on the event's own mapping), the message handed
to `producer.send_and_wait` (if reached), and the exception logged by
the `except` block (if any). -/
structure FixedHandleResult where
  eventPayload : JsonObj
  published : Option PublishedMsg
  logged : Option PyErr

/-- `handle_event` (`kafka_queue/__init__.py` lines 61–98).
`walletId` is `profile.settings.get("wallet.id")`; `send` is the outcome
`producer.send_and_wait` would have.  The destination topic is
`event.topic.replace("::", "-")`; the payload is the event's own mapping
with `wallet_id` assigned in place; the publish carries no key; the
`try`/`except` swallows any exception of the publish, so the handler
always returns (`.ok`). -/
def kq_handle_event (walletId : Option (List Char)) (ev : Event)
    (send : Except PyErr Unit) : Except PyErr FixedHandleResult :=
  let topic := replacePy ev.topic (chars "::") (chars "-")
  let payload := objSet ev.payload (chars "wallet_id") (optStrJson walletId)
  let msg : PublishedMsg := ⟨topic, utf8Encode (jsonDumps (.obj payload)), none⟩
  match send with
  | .ok _ => .ok ⟨payload, some msg, none⟩
  | .error e => .ok ⟨payload, some msg, some e⟩

/-- A record delivered by the Kafka consumer: `.topic` and `.value`. -/
structure KRecord where
  topic : List Char
  value : List Nat
deriving Repr

/-- The `consume` loop (`kafka_queue/__init__.py` lines 54–57) run over
a finite prefix of the consumer's delivery sequence: strictly in order,
each record's topic is translated by `str.replace("-", "::")` and its
value parsed by `json.loads` before `bus.notify`.  A `json.loads`
failure crashes the task: no further record is processed.  Returns the
bus notifications in order, and the crashing exception if any. -/
def consumeLoop : List KRecord → List (List Char × Json) × Option PyErr
  | [] => ([], none)
  | r :: rs =>
    match loads r.value with
    | .error e => ([], some e)
    | .ok j =>
      let p := consumeLoop rs
      ((replacePy r.topic (chars "-") (chars "::"), j) :: p.1, p.2)

/-- All records' values parsed by `json.loads`, in order; the first
failure's exception otherwise (used to state when the consume loop runs
cleanly). -/
def loadsAll : List KRecord → Except PyErr (List Json)
  | [] => .ok []
  | r :: rs =>
    match loads r.value with
    | .error e => .error e
    | .ok j =>
      match loadsAll rs with
      | .error e => .error e
      | .ok js => .ok (j :: js)

/-! ## Configurable event bridge (`kafka_queue/events/__init__.py`)

The handler imports `get_config` and `EventsConfig` from
`kafka_queue/config.py`, a file of this repository that is not under
`src/`; the configuration shape is therefore modelled from the spec
(§3 `EventsConfig`, §4.5 Configuration Loader) and the handler takes the
loaded `events` section as a parameter. -/

/-- Modelled from the spec: `EventsConfig`, the `events` section of the
plugin configuration — `topic_maps` maps an event-pattern source string
to a topic-name template, `producer` holds broker client options.  The
default constructor yields an empty topic map. -/
structure EventsConfig where
  topic_maps : List (List Char × List Char)
  producer : List (List Char × List Char)
deriving Repr

/-- Modelled from the spec: `EventsConfig.default()`. -/
def EventsConfig.default : EventsConfig := ⟨[], []⟩

/-- First value bound to `k` in an association list (Python dict lookup
for the modelled string-keyed mappings). -/
def lookupMap (m : List (List Char × List Char)) (k : List Char) : Option (List Char) :=
  (m.find? (fun p => p.1 == k)).map (fun p => p.2)

/-- `_derive_category` (lines 35–44).  `RECORD_RE.match` succeeds exactly
when the topic starts with `acapy::record::`, and group 1 is the maximal
colon-free run after that prefix.  `WEBHOOK_RE.match` succeeds exactly
when the topic starts with `acapy::webhook::\x7b` and a `\x7d` follows
with no newline before it (`.` does not match a newline). -/
def _derive_category (topic : List Char) : Option (List Char) :=
  if (chars "acapy::record::").isPrefixOf topic then
    some ((topic.drop 15).takeWhile (fun c => c ≠ ':'))
  else if (chars "acapy::webhook::\x7b").isPrefixOf topic &&
      ((topic.drop 17).takeWhile (fun c => c ≠ Char.ofNat 10)).contains '\x7d' then
    some (chars "webhook")
  else none

mutual
/-- Python `repr` of a decoded JSON value, as far as the sources can
feed one into `str()` (via `Template.substitute`): containers render
with `repr` recursively and single-quoted strings.  `repr`'s escaping
inside string content is not modelled (no theorem renders a string
needing it). -/
def pyRepr : Json → List Char
  | .null => chars "None"
  | .bool true => chars "True"
  | .bool false => chars "False"
  | .num n => intChars n
  | .str s => Char.ofNat 39 :: s ++ [Char.ofNat 39]
  | .arr xs => '[' :: pyReprArr xs ++ [']']
  | .obj kvs => '\x7b' :: pyReprObj kvs ++ ['\x7d']

/-- `repr` of list elements, `", "`-separated. -/
def pyReprArr : JsonArr → List Char
  | .nil => []
  | .cons x .nil => pyRepr x
  | .cons x (.cons y tl) => pyRepr x ++ ',' :: ' ' :: pyReprArr (.cons y tl)

/-- `repr` of dict items, `", "`-separated. -/
def pyReprObj : JsonObj → List Char
  | .nil => []
  | .cons k v .nil => (Char.ofNat 39 :: k ++ [Char.ofNat 39]) ++ ':' :: ' ' :: pyRepr v
  | .cons k v (.cons k2 v2 tl) =>
    ((Char.ofNat 39 :: k ++ [Char.ofNat 39]) ++ ':' :: ' ' :: pyRepr v) ++
      ',' :: ' ' :: pyReprObj (.cons k2 v2 tl)
end

/-- Python `str()` of a decoded JSON value (what `Template.substitute`
interpolates): a string is itself, everything else is its `repr`. -/
def pyStr (j : Json) : List Char :=
  match j with
  | .str s => s
  | _ => pyRepr j

/-- First character of a Python identifier. -/
def identStart (c : Char) : Bool := c.isAlpha || c = '_'

/-- Later character of a Python identifier. -/
def identChar (c : Char) : Bool := c.isAlphanum || c = '_'

/-- `string.Template(tmpl).substitute(**kw)`: `$$` is a literal `$`,
`$name` and `$\x7bname\x7d` interpolate `kw[name]` (`KeyError` when
unbound), any other `$` raises `ValueError` (an invalid placeholder).
The fuel equals the remaining length (each step consumes at least one
character), so the 0 case is unreachable from `templateSubstitute`. -/
def tmplGo (kw : List (List Char × List Char)) : Nat → List Char → Except PyErr (List Char)
  | 0, _ => .error .valueErrorTemplate
  | _+1, [] => .ok []
  | f+1, c :: rest =>
    if c = '$' then
      match rest with
      | [] => .error .valueErrorTemplate
      | d :: r2 =>
        if d = '$' then (tmplGo kw f r2).map ('$' :: ·)
        else if d = '\x7b' then
          let name := r2.takeWhile identChar
          match r2.dropWhile identChar with
          | '\x7d' :: r4 =>
            if identStart (name.headD ' ') then
              match lookupMap kw name with
              | some v => (tmplGo kw f r4).map (v ++ ·)
              | none => .error (.keyError name)
            else .error .valueErrorTemplate
          | _ => .error .valueErrorTemplate
        else if identStart d then
          let name := d :: r2.takeWhile identChar
          match lookupMap kw name with
          | some v => (tmplGo kw f (r2.dropWhile identChar)).map (v ++ ·)
          | none => .error (.keyError name)
        else .error .valueErrorTemplate
    else (tmplGo kw f rest).map (c :: ·)

/-- `Template(template).substitute(**payload)`. -/
def templateSubstitute (tmpl : List Char) (kw : List (List Char × List Char)) :
    Except PyErr (List Char) :=
  tmplGo kw (tmpl.length + 1) tmpl

/-- A bus event with its subscription metadata, as the configurable
handler sees it: `.topic`, `.payload`, and `.metadata.pattern.pattern`
(the source text of the pattern that matched). -/
structure EventWM where
  topic : List Char
  payload : JsonObj
  patternSource : List Char

/-- `wallet_id or "base"`: `None` and the empty string are falsy. -/
def walletOr : Option (List Char) → List Char
  | some s => if s = [] then chars "base" else s
  | none => chars "base"

/-- The payload dict the configurable `handle_event` builds (lines
52–58): `wallet_id` (defaulted), `state` (`payload.get("state")`),
`topic`, `category`, and the original payload. -/
def ev_payload (walletId : Option (List Char)) (ev : EventWM) : JsonObj :=
  .cons (chars "wallet_id") (.str (walletOr walletId))
    (.cons (chars "state") ((objLookup ev.payload (chars "state")).getD .null)
      (.cons (chars "topic") (.str ev.topic)
        (.cons (chars "category") (optStrJson (_derive_category ev.topic))
          (.cons (chars "payload") (.obj ev.payload) .nil))))

/-- The keyword mapping `substitute(**payload)` receives: each payload
value as Python `str()` renders it. -/
def objToKwargs : JsonObj → List (List Char × List Char)
  | .nil => []
  | .cons k v tl => (k, pyStr v) :: objToKwargs tl

/-- The publish key `wallet_id.encode() if wallet_id else None`: the raw
(undefaulted) wallet id — `None` and the empty string give no key. -/
def walletKey : Option (List Char) → Option (List Nat)
  | some s => if s = [] then none else some (utf8Encode s)
  | none => none

/-- What one call of the configurable `handle_event` did: the event's
payload mapping after the handler (untouched — the handler builds a
fresh dict), the payload dict it built, the message handed to
`send_and_wait` (if reached), and the exception logged by the
`except` block (if any). -/
structure EvHandleResult where
  eventPayload : JsonObj
  builtPayload : JsonObj
  published : Option PublishedMsg
  logged : Option PyErr

/-- `handle_event` (`kafka_queue/events/__init__.py` lines 47–72).
`walletId` is `profile.settings.get("wallet.id")`; `eventsCfg` is
`get_config(profile.settings).events` (re-read for this event — `None`
falls back to `EventsConfig.default()`); `send` is the outcome the
scoped producer's `send_and_wait` would have (an exception while
constructing the producer lands in the same `except`).  The `try`
covers the topic-map lookup, the template rendering and the publish;
any exception there is logged and swallowed, so the handler always
returns (`.ok`). -/
def ev_handle_event (walletId : Option (List Char)) (ev : EventWM)
    (eventsCfg : Option EventsConfig) (send : Except PyErr Unit) :
    Except PyErr EvHandleResult :=
  let payload := ev_payload walletId ev
  let config := eventsCfg.getD EventsConfig.default
  match lookupMap config.topic_maps ev.patternSource with
  | none => .ok ⟨ev.payload, payload, none, some (.keyError ev.patternSource)⟩
  | some template =>
    match templateSubstitute template (objToKwargs payload) with
    | .error e => .ok ⟨ev.payload, payload, none, some e⟩
    | .ok kafkaTopic =>
      let msg : PublishedMsg := ⟨kafkaTopic, utf8Encode (jsonDumps (.obj payload)), walletKey walletId⟩
      match send with
      | .ok _ => .ok ⟨ev.payload, payload, some msg, none⟩
      | .error e => .ok ⟨ev.payload, payload, some msg, some e⟩

/-! ## Auxiliary definitions for the verification -/

/-- Printable ASCII (space through tilde). -/
def printableAscii (c : Char) : Prop := 0x20 ≤ c.toNat ∧ c.toNat < 0x7F

instance (c : Char) : Decidable (printableAscii c) := by
  unfold printableAscii; infer_instance

/-- Printable ASCII that `json.dumps` emits unescaped. -/
def plainJsonChar (c : Char) : Prop := c ≠ '"' ∧ c ≠ '\\' ∧ printableAscii c

instance (c : Char) : Decidable (plainJsonChar c) := by
  unfold plainJsonChar; infer_instance

/-- Sample payload model instance for the round-trip witness. -/
def opSample : OutboundPayload := ⟨⟨chars "https://example.org/ep"⟩, [1, 2, 250], 3⟩

/-- Packed-message header with two recipients, kids `A` and `B`. -/
def innerKidsAB : List Char :=
  chars "\x7b\"recipients\": [\x7b\"header\": \x7b\"kid\": \"A\"\x7d\x7d, \x7b\"header\": \x7b\"kid\": \"B\"\x7d\x7d]\x7d"

/-- Relay body carrying `innerKidsAB` in its `protected` field. -/
def bodyKidsAB : List Nat :=
  utf8Encode (chars "\x7b\"protected\": \"" ++ b64EncodeUrlsafe (utf8Encode innerKidsAB) ++ chars "\"\x7d")

/-- Packed-message header with one recipient whose kid is the empty string. -/
def innerKidEmpty : List Char :=
  chars "\x7b\"recipients\": [\x7b\"header\": \x7b\"kid\": \"\"\x7d\x7d]\x7d"

/-- Relay body carrying `innerKidEmpty` in its `protected` field. -/
def bodyKidEmpty : List Nat :=
  utf8Encode (chars "\x7b\"protected\": \"" ++ b64EncodeUrlsafe (utf8Encode innerKidEmpty) ++ chars "\"\x7d")

/-- Packed-message header with an empty `recipients` list. -/
def innerNoRecips : List Char := chars "\x7b\"recipients\": []\x7d"

/-- Relay body carrying `innerNoRecips` in its `protected` field. -/
def bodyNoRecips : List Nat :=
  utf8Encode (chars "\x7b\"protected\": \"" ++ b64EncodeUrlsafe (utf8Encode innerNoRecips) ++ chars "\"\x7d")

/-- A valid JSON relay body with no `protected` field. -/
def bodyNoProt : List Nat := utf8Encode (chars "\x7b\"foo\": 1\x7d")

/-- A relay body that is not JSON at all. -/
def bodyNotJson : List Nat := utf8Encode (chars "not json")

/-- The topic-name template `$\x7bcategory\x7d-$\x7bstate\x7d` from the claims. -/
def tmplCategoryState : List Char := chars "$\x7bcategory\x7d-$\x7bstate\x7d"

/-- Configurable-bridge event: connections record, state `active` in the
payload, matched by the pattern source `pat1`. -/
def evConnActive : EventWM :=
  ⟨chars "acapy::record::connections::active",
    .cons (chars "state") (.str (chars "active")) .nil, chars "pat1"⟩

/-- The same event with an empty payload (no `state` key). -/
def evConnNoState : EventWM :=
  ⟨chars "acapy::record::connections::active", .nil, chars "pat1"⟩

/-- Configuration mapping `pat1` to the `category`/`state` template. -/
def cfgConn : EventsConfig := ⟨[(chars "pat1", tmplCategoryState)], []⟩

/-- Fixed-bridge sample event. -/
def evBasic : Event :=
  ⟨chars "acapy::basicmessage::received", .cons (chars "m") (.str (chars "hi")) .nil⟩

/-- Inbound records for the consume-loop witness. -/
def krSample : List KRecord :=
  [⟨chars "acapy-inbound-message", utf8Encode (chars "\x7b\"a\": 1\x7d")⟩,
   ⟨chars "acapy-inbound-message", utf8Encode (chars "\x7b\"b\": 2\x7d")⟩]

/-! ## Library lemmas: UTF-8, base64, digits, escaping -/

set_option maxRecDepth 100000

lemma utf8Encode_cons (c : Char) (s : List Char) :
    utf8Encode (c :: s) = utf8EncodeChar c ++ utf8Encode s := by
  simp [utf8Encode]

lemma utf8EncodeChar_ascii (c : Char) (h : c.toNat < 0x80) : utf8EncodeChar c = [c.toNat] := by
  simp [utf8EncodeChar, h]

lemma utf8Decode_utf8Encode_ascii (s : List Char) (h : ∀ c ∈ s, c.toNat < 0x80) :
    utf8Decode (utf8Encode s) = some s := by
  induction s with
  | nil => rfl
  | cons c cs ih =>
    have hc : c.toNat < 0x80 := h c (by simp)
    have hcs : ∀ c' ∈ cs, c'.toNat < 0x80 := fun c' hmem => h c' (by simp [hmem])
    rw [utf8Encode_cons, utf8EncodeChar_ascii c hc]
    show utf8Decode (c.toNat :: utf8Encode cs) = some (c :: cs)
    rw [utf8Decode]
    show utf8DecodeGo ((utf8Encode cs).length + 1) (c.toNat :: utf8Encode cs) = some (c :: cs)
    have ihg : utf8DecodeGo (utf8Encode cs).length (utf8Encode cs) = some cs := ih hcs
    rw [utf8DecodeGo]
    simp [utf8DecodeStep, hc, ihg, Char.ofNat_toNat]

lemma decB64_encB64 (s : Nat) (h : s < 64) : decB64 (encB64 s) = some s := by
  have key : ∀ i : Fin 64, decB64 (encB64 i.val) = some i.val := by decide
  exact key ⟨s, h⟩

lemma encB64_ne_pad (s : Nat) : encB64 s ≠ '=' := by
  by_cases h : s < 64
  · have key : ∀ i : Fin 64, encB64 i.val ≠ '=' := by decide
    exact key ⟨s, h⟩
  · have hlen : ALPHA64.length = 64 := by decide
    have : encB64 s = 'A' := by
      unfold encB64
      exact List.getD_eq_default _ _ (by omega)
    rw [this]
    decide

lemma b64DecodeCore_encode (bs : List Nat) (h : ∀ b ∈ bs, b < 256) :
    b64DecodeCore (b64EncodeUrlsafe bs) = some bs := by
  induction bs using b64EncodeUrlsafe.induct with
  | case1 => rfl
  | case2 b0 =>
    have h0 : b0 < 256 := h b0 (by simp)
    rw [b64EncodeUrlsafe]
    rw [b64DecodeCore, decB64_encB64 _ (by omega), decB64_encB64 _ (by omega)]
    simp
    omega
  | case3 b0 b1 =>
    have h0 : b0 < 256 := h b0 (by simp)
    have h1 : b1 < 256 := h b1 (by simp)
    rw [b64EncodeUrlsafe]
    rw [b64DecodeCore, decB64_encB64 _ (by omega), decB64_encB64 _ (by omega),
      decB64_encB64 _ (by omega)]
    simp [encB64_ne_pad]
    refine ⟨by omega, by omega⟩
  | case4 b0 b1 b2 rest ih =>
    have h0 : b0 < 256 := h b0 (by simp)
    have h1 : b1 < 256 := h b1 (by simp)
    have h2 : b2 < 256 := h b2 (by simp)
    have hrest : ∀ b ∈ rest, b < 256 := fun b hb => h b (by simp [hb])
    rw [b64EncodeUrlsafe]
    rw [b64DecodeCore, decB64_encB64 _ (by omega), decB64_encB64 _ (by omega),
      decB64_encB64 _ (by omega), decB64_encB64 _ (by omega)]
    simp [encB64_ne_pad, ih hrest]
    refine ⟨by omega, by omega, by omega⟩

lemma digitsVal_append (xs : List Char) (c : Char) :
    digitsVal (xs ++ [c]) = 10 * digitsVal xs + (c.toNat - 48) := by
  simp [digitsVal, List.foldl_append]

lemma digitChar_toNat (d : Nat) (h : d < 10) : (Char.ofNat (48 + d)).toNat = 48 + d := by
  interval_cases d <;> decide

lemma digitChar_isDigit (d : Nat) (h : d < 10) : (Char.ofNat (48 + d)).isDigit = true := by
  interval_cases d <;> decide

lemma natCharsGo_val : ∀ f n, n ≤ f → digitsVal (natCharsGo f n) = n := by
  intro f
  induction f with
  | zero =>
    intro n hn
    interval_cases n
    rfl
  | succ f ih =>
    intro n hn
    rw [natCharsGo]
    by_cases h0 : n = 0
    · subst h0
      simp [digitsVal]
    · rw [if_neg h0, digitsVal_append, ih (n / 10) (by omega), digitChar_toNat (n % 10) (by omega)]
      omega

lemma natCharsGo_digits : ∀ f n, ∀ c ∈ natCharsGo f n, c.isDigit = true := by
  intro f
  induction f with
  | zero => intro n c hc; simp [natCharsGo] at hc
  | succ f ih =>
    intro n c hc
    rw [natCharsGo] at hc
    by_cases h0 : n = 0
    · simp [h0] at hc
    · rw [if_neg h0] at hc
      rcases List.mem_append.mp hc with hmem | hmem
      · exact ih _ _ hmem
      · have : c = Char.ofNat (48 + n % 10) := by simpa using hmem
        rw [this]
        exact digitChar_isDigit _ (by omega)

lemma natChars_val (n : Nat) : digitsVal (natChars n) = n := by
  rw [natChars]
  by_cases h : n = 0
  · subst h; rfl
  · rw [if_neg h]
    exact natCharsGo_val (n + 1) n (by omega)

lemma natChars_digits (n : Nat) : ∀ c ∈ natChars n, c.isDigit = true := by
  intro c hc
  rw [natChars] at hc
  by_cases h : n = 0
  · simp [h] at hc
    rw [hc]; decide
  · rw [if_neg h] at hc
    exact natCharsGo_digits _ _ _ hc

lemma natChars_ne_nil (n : Nat) : natChars n ≠ [] := by
  rw [natChars]
  by_cases h : n = 0
  · simp [h]
  · rw [if_neg h, natCharsGo, if_neg h]
    simp

lemma takeWhile_digits (ds rest : List Char) (hds : ∀ c ∈ ds, c.isDigit = true)
    (hrest : (rest.headD ' ').isDigit = false) :
    (ds ++ rest).takeWhile Char.isDigit = ds ∧ (ds ++ rest).dropWhile Char.isDigit = rest := by
  induction ds with
  | nil =>
    cases rest with
    | nil => simp
    | cons r rs =>
      simp only [List.headD_cons] at hrest
      simp [List.takeWhile_cons, List.dropWhile_cons, hrest]
  | cons d ds ih =>
    have hd : d.isDigit = true := hds d (by simp)
    obtain ⟨h1, h2⟩ := ih (fun c hc => hds c (by simp [hc]))
    simp [List.takeWhile_cons, List.dropWhile_cons, hd, h1, h2]

lemma parseNatCore_natChars (n : Nat) (rest : List Char)
    (hrest : (rest.headD ' ').isDigit = false)
    (hdot : rest.headD ' ' ≠ '.' ∧ rest.headD ' ' ≠ 'e' ∧ rest.headD ' ' ≠ 'E') :
    parseNatCore (natChars n ++ rest) = some (n, rest) := by
  obtain ⟨ht, hd⟩ := takeWhile_digits (natChars n) rest (natChars_digits n) hrest
  rw [parseNatCore]
  simp only [ht, hd]
  rw [if_neg (natChars_ne_nil n),
    if_neg (by push_neg; exact ⟨hdot.1, hdot.2.1, hdot.2.2⟩), natChars_val]

lemma parseNumber_natChars (n : Nat) (rest : List Char)
    (hrest : (rest.headD ' ').isDigit = false)
    (hdot : rest.headD ' ' ≠ '.' ∧ rest.headD ' ' ≠ 'e' ∧ rest.headD ' ' ≠ 'E') :
    parseNumber (natChars n ++ rest) = some ((n : Int), rest) := by
  obtain ⟨d, ds, hcons⟩ : ∃ d ds, natChars n = d :: ds := by
    cases hnc : natChars n with
    | nil => exact absurd hnc (natChars_ne_nil n)
    | cons d ds => exact ⟨d, ds, rfl⟩
  have hd : d.isDigit = true := by
    have := natChars_digits n d (by rw [hcons]; simp)
    exact this
  have hdm : d ≠ '-' := by
    intro e
    rw [e] at hd
    exact absurd hd (by decide)
  rw [hcons, List.cons_append, parseNumber, if_neg hdm, ← List.cons_append, ← hcons,
    parseNatCore_natChars n rest hrest hdot]
  rfl

lemma escChar_plain (c : Char) (h : plainJsonChar c) : escChar c = [c] := by
  obtain ⟨h1, h2, h3, h4⟩ := h
  have e8 : c ≠ Char.ofNat 8 := fun e => absurd (e ▸ h3) (by decide)
  have e9 : c ≠ Char.ofNat 9 := fun e => absurd (e ▸ h3) (by decide)
  have e10 : c ≠ Char.ofNat 10 := fun e => absurd (e ▸ h3) (by decide)
  have e12 : c ≠ Char.ofNat 12 := fun e => absurd (e ▸ h3) (by decide)
  have e13 : c ≠ Char.ofNat 13 := fun e => absurd (e ▸ h3) (by decide)
  rw [escChar, if_neg h1, if_neg h2, if_neg e8, if_neg e9, if_neg e10, if_neg e12,
    if_neg e13, if_neg (by omega), if_pos h4]

lemma escapeString_cons (c : Char) (s : List Char) :
    escapeString (c :: s) = escChar c ++ escapeString s := by
  simp [escapeString]

lemma escapeString_plain (s : List Char) (h : ∀ c ∈ s, plainJsonChar c) : escapeString s = s := by
  induction s with
  | nil => rfl
  | cons c cs ih =>
    rw [escapeString_cons, escChar_plain c (h c (by simp)), ih (fun c2 hc => h c2 (by simp [hc]))]
    rfl

lemma printable_ne_quote_escape (c : Char) (hq : c ≠ '"') (hb : c ≠ '\\')
    (h : printableAscii c) : plainJsonChar c := ⟨hq, hb, h⟩

lemma parseStringStep_close (tail : List Char) :
    parseStringStep ('"' :: tail) = some (none, tail) := rfl

lemma parseStringStep_quoteEsc (tail : List Char) :
    parseStringStep ('\\' :: '"' :: tail) = some (some '"', tail) := rfl

lemma parseStringStep_bsEsc (tail : List Char) :
    parseStringStep ('\\' :: '\\' :: tail) = some (some '\\', tail) := rfl

lemma parseStringStep_plain (c : Char) (r : List Char) (hq : c ≠ '"') (hb : c ≠ '\\')
    (h : printableAscii c) : parseStringStep (c :: r) = some (some c, r) := by
  obtain ⟨h3, _⟩ := h
  rw [parseStringStep.eq_def]
  simp [hq, hb, show ¬ c.toNat < 32 from by omega]

lemma parseStringGo_escape : ∀ (s : List Char) (f : Nat) (rest : List Char),
    (∀ c ∈ s, printableAscii c) → (escapeString s ++ '"' :: rest).length ≤ f →
    parseStringGo f (escapeString s ++ '"' :: rest) = some (s, rest) := by
  intro s
  induction s with
  | nil =>
    intro f rest _ hf
    obtain ⟨f', rfl⟩ : ∃ f', f = f' + 1 := ⟨f - 1, by simp at hf; omega⟩
    show parseStringGo (f' + 1) ('"' :: rest) = some ([], rest)
    rw [parseStringGo, parseStringStep_close]
  | cons c cs ih =>
    intro f rest hpr hf
    have hc := hpr c (by simp)
    have hcs : ∀ c2 ∈ cs, printableAscii c2 := fun c2 e => hpr c2 (by simp [e])
    rw [escapeString_cons] at hf ⊢
    by_cases hq : c = '"'
    · subst hq
      have he : escChar '"' = ['\\', '"'] := by decide
      rw [he] at hf ⊢
      obtain ⟨f', rfl⟩ : ∃ f', f = f' + 1 := ⟨f - 1, by simp at hf; omega⟩
      show parseStringGo (f' + 1) ('\\' :: '"' :: (escapeString cs ++ '"' :: rest)) =
        some ('"' :: cs, rest)
      rw [parseStringGo, parseStringStep_quoteEsc]
      show (parseStringGo f' (escapeString cs ++ '"' :: rest)).map
        (fun p => ('"' :: p.1, p.2)) = some ('"' :: cs, rest)
      rw [ih f' rest hcs (by simp at hf ⊢; omega)]
      rfl
    · by_cases hb : c = '\\'
      · subst hb
        have he : escChar '\\' = ['\\', '\\'] := by decide
        rw [he] at hf ⊢
        obtain ⟨f', rfl⟩ : ∃ f', f = f' + 1 := ⟨f - 1, by simp at hf; omega⟩
        show parseStringGo (f' + 1) ('\\' :: '\\' :: (escapeString cs ++ '"' :: rest)) =
          some ('\\' :: cs, rest)
        rw [parseStringGo, parseStringStep_bsEsc]
        show (parseStringGo f' (escapeString cs ++ '"' :: rest)).map
          (fun p => ('\\' :: p.1, p.2)) = some ('\\' :: cs, rest)
        rw [ih f' rest hcs (by simp at hf ⊢; omega)]
        rfl
      · have he : escChar c = [c] := escChar_plain c ⟨hq, hb, hc⟩
        rw [he] at hf ⊢
        obtain ⟨f', rfl⟩ : ∃ f', f = f' + 1 := ⟨f - 1, by simp at hf; omega⟩
        show parseStringGo (f' + 1) (c :: (escapeString cs ++ '"' :: rest)) =
          some (c :: cs, rest)
        rw [parseStringGo, parseStringStep_plain c _ hq hb hc]
        show (parseStringGo f' (escapeString cs ++ '"' :: rest)).map
          (fun p => (c :: p.1, p.2)) = some (c :: cs, rest)
        rw [ih f' rest hcs (by simp at hf ⊢; omega)]
        rfl

lemma parseStringBody_escape (s rest : List Char) (h : ∀ c ∈ s, printableAscii c) :
    parseStringBody (escapeString s ++ '"' :: rest) = some (s, rest) :=
  parseStringGo_escape s _ rest h (le_refl _)

lemma encB64_plain (s : Nat) : plainJsonChar (encB64 s) := by
  by_cases h : s < 64
  · have key : ∀ i : Fin 64, plainJsonChar (encB64 i.val) := by decide
    exact key ⟨s, h⟩
  · have hA : encB64 s = 'A' := by
      unfold encB64
      refine List.getD_eq_default _ _ ?_
      have : ALPHA64.length = 64 := by decide
      omega
    rw [hA]
    exact ⟨by decide, by decide, by decide, by decide⟩

lemma pad_plain : plainJsonChar '=' := ⟨by decide, by decide, by decide, by decide⟩

lemma b64Encode_plain (bs : List Nat) : ∀ c ∈ b64EncodeUrlsafe bs, plainJsonChar c := by
  induction bs using b64EncodeUrlsafe.induct with
  | case1 => simp [b64EncodeUrlsafe]
  | case2 b0 =>
    intro c hc
    rw [b64EncodeUrlsafe] at hc
    simp only [List.mem_cons] at hc
    rcases hc with rfl | rfl | rfl | rfl | h
    · exact encB64_plain _
    · exact encB64_plain _
    · exact pad_plain
    · exact pad_plain
    · simp at h
  | case3 b0 b1 =>
    intro c hc
    rw [b64EncodeUrlsafe] at hc
    simp only [List.mem_cons] at hc
    rcases hc with rfl | rfl | rfl | rfl | h
    · exact encB64_plain _
    · exact encB64_plain _
    · exact encB64_plain _
    · exact pad_plain
    · simp at h
  | case4 b0 b1 b2 rest ih =>
    intro c hc
    rw [b64EncodeUrlsafe] at hc
    simp only [List.mem_cons] at hc
    rcases hc with rfl | rfl | rfl | rfl | h
    · exact encB64_plain _
    · exact encB64_plain _
    · exact encB64_plain _
    · exact encB64_plain _
    · exact ih c h

lemma plain_printable (c : Char) (h : plainJsonChar c) : printableAscii c := h.2.2

lemma plain_ascii (c : Char) (h : plainJsonChar c) : c.toNat < 0x80 := by
  obtain ⟨_, _, _, h4⟩ := h
  omega

lemma printable_ascii (c : Char) (h : printableAscii c) : c.toNat < 0x80 := by
  obtain ⟨_, h2⟩ := h
  omega

lemma skipWs_cons_neg (c : Char) (l : List Char) (h : isJsonWs c = false) :
    skipWs (c :: l) = c :: l := by
  simp [skipWs, List.dropWhile_cons, h]

lemma isDigit_ne (c d : Char) (h : c.isDigit = true) (hd : d.isDigit = false) : c ≠ d := by
  intro e
  subst e
  rw [h] at hd
  cases hd

lemma isDigit_not_ws (c : Char) (h : c.isDigit = true) : isJsonWs c = false := by
  have h1 : c ≠ ' ' := isDigit_ne c ' ' h (by decide)
  have h2 : c ≠ Char.ofNat 9 := isDigit_ne c _ h (by decide)
  have h3 : c ≠ Char.ofNat 10 := isDigit_ne c _ h (by decide)
  have h4 : c ≠ Char.ofNat 13 := isDigit_ne c _ h (by decide)
  simp [isJsonWs, h1, h2, h3, h4]

lemma skipWs_ws_cons (c : Char) (l : List Char) (h : isJsonWs c = true) :
    skipWs (c :: l) = skipWs l := by
  simp [skipWs, List.dropWhile_cons, h]

lemma expectColon_cons (l : List Char) : expectColon (':' :: l) = some l := by
  rw [expectColon, skipWs_cons_neg _ _ (by decide)]
  exact rfl

lemma parseValue_cons (f : Nat) (l : List Char) (c : Char) (r : List Char)
    (h : skipWs l = c :: r) :
    parseValue (f + 1) l =
      if c = '\x7b' then parseMembers f r
      else if c = '[' then parseElements f r
      else if c = '"' then (parseStringBody r).map (fun p => (.str p.1, p.2))
      else if c = 'n' then (expectLit (chars "ull") r).map (fun r2 => (.null, r2))
      else if c = 't' then (expectLit (chars "rue") r).map (fun r2 => (.bool true, r2))
      else if c = 'f' then (expectLit (chars "alse") r).map (fun r2 => (.bool false, r2))
      else (parseNumber (c :: r)).map (fun p => (.num p.1, p.2)) := by
  rw [parseValue, h]

lemma parseMembers_cons (f : Nat) (l : List Char) (c : Char) (r : List Char)
    (h : skipWs l = c :: r) :
    parseMembers (f + 1) l =
      if c = '\x7d' then some (.obj .nil, r)
      else if c = '"' then
        (parseStringBody r).bind (fun pk =>
          (expectColon pk.2).bind (fun r3 =>
            (parseValue f r3).bind (fun pv =>
              (parseMembersRest f pv.2).map (fun p => (Json.obj (.cons pk.1 pv.1 p.1), p.2)))))
      else none := by
  rw [parseMembers, h]

lemma parseMembersRest_cons (f : Nat) (l : List Char) (c : Char) (r : List Char)
    (h : skipWs l = c :: r) :
    parseMembersRest (f + 1) l =
      if c = '\x7d' then some (.nil, r)
      else if c = ',' then
        match skipWs r with
        | '"' :: r1 =>
          (parseStringBody r1).bind (fun pk =>
            (expectColon pk.2).bind (fun r3 =>
              (parseValue f r3).bind (fun pv =>
                (parseMembersRest f pv.2).map (fun p => (JsonObj.cons pk.1 pv.1 p.1, p.2)))))
        | _ => none
      else none := by
  rw [parseMembersRest, h]

lemma parse_str_value (s : List Char) (hs : ∀ c ∈ s, printableAscii c) (f : Nat)
    (l rest : List Char) (hl : skipWs l = '"' :: (escapeString s ++ '"' :: rest)) :
    parseValue (f + 1) l = some (.str s, rest) := by
  rw [parseValue_cons f l _ _ hl]
  rw [if_neg (by decide), if_neg (by decide), if_pos rfl, parseStringBody_escape s rest hs]
  rfl

lemma parse_num_value (n : Nat) (f : Nat) (l rest : List Char)
    (hl : skipWs l = natChars n ++ rest)
    (hrest : (rest.headD ' ').isDigit = false)
    (hdot : rest.headD ' ' ≠ '.' ∧ rest.headD ' ' ≠ 'e' ∧ rest.headD ' ' ≠ 'E') :
    parseValue (f + 1) l = some (.num (n : Int), rest) := by
  obtain ⟨d, ds, hcons⟩ : ∃ d ds, natChars n = d :: ds := by
    cases hnc : natChars n with
    | nil => exact absurd hnc (natChars_ne_nil n)
    | cons d ds => exact ⟨d, ds, rfl⟩
  have hd : d.isDigit = true := natChars_digits n d (by rw [hcons]; simp)
  rw [hcons, List.cons_append] at hl
  rw [parseValue_cons f l _ _ hl]
  rw [if_neg (isDigit_ne d _ hd (by decide)), if_neg (isDigit_ne d _ hd (by decide)),
    if_neg (isDigit_ne d _ hd (by decide)), if_neg (isDigit_ne d _ hd (by decide)),
    if_neg (isDigit_ne d _ hd (by decide)), if_neg (isDigit_ne d _ hd (by decide))]
  rw [← List.cons_append, ← hcons, parseNumber_natChars n rest hrest hdot]
  rfl

lemma parseValue_obj (f : Nat) (l r : List Char) (h : skipWs l = '\x7b' :: r) :
    parseValue (f + 1) l = parseMembers f r := by
  rw [parseValue, h]
  exact rfl

lemma parseMembers_key (f : Nat) (l r : List Char) (h : skipWs l = '"' :: r) :
    parseMembers (f + 1) l =
      (parseStringBody r).bind (fun pk =>
        (expectColon pk.2).bind (fun r3 =>
          (parseValue f r3).bind (fun pv =>
            (parseMembersRest f pv.2).map (fun p => (Json.obj (.cons pk.1 pv.1 p.1), p.2))))) := by
  rw [parseMembers, h]
  exact rfl

lemma parseMembersRest_close (f : Nat) (l r : List Char) (h : skipWs l = '\x7d' :: r) :
    parseMembersRest (f + 1) l = some (.nil, r) := by
  rw [parseMembersRest, h]
  exact rfl

lemma parseMembersRest_comma (f : Nat) (l r r1 : List Char) (h : skipWs l = ',' :: r)
    (h1 : skipWs r = '"' :: r1) :
    parseMembersRest (f + 1) l =
      (parseStringBody r1).bind (fun pk =>
        (expectColon pk.2).bind (fun r3 =>
          (parseValue f r3).bind (fun pv =>
            (parseMembersRest f pv.2).map (fun p => (JsonObj.cons pk.1 pv.1 p.1, p.2))))) := by
  rw [parseMembersRest_cons f l ',' r h, if_neg (by decide), if_pos rfl, h1]
  exact rfl

lemma skipWs_natChars (n : Nat) (rest : List Char) :
    skipWs (natChars n ++ rest) = natChars n ++ rest := by
  obtain ⟨d, ds, hcons⟩ : ∃ d ds, natChars n = d :: ds := by
    cases hnc : natChars n with
    | nil => exact absurd hnc (natChars_ne_nil n)
    | cons d ds => exact ⟨d, ds, rfl⟩
  have hd : d.isDigit = true := natChars_digits n d (by rw [hcons]; simp)
  rw [hcons, List.cons_append, skipWs_cons_neg _ _ (isDigit_not_ws d hd)]

lemma intChars_natCast (n : Nat) : intChars (n : Int) = natChars n := by
  rw [intChars, if_neg (by omega)]
  simp

lemma parse_outbound_trace (u : List Char) (bs : List Nat) (n : Nat)
    (hu : ∀ c ∈ u, printableAscii c) (f : Nat) :
    parseValue (f + 12)
      ('\x7b' :: '"' :: (escapeString (chars "service") ++ '"' :: ':' :: ' ' :: '\x7b' :: '"' ::
        (escapeString (chars "url") ++ '"' :: ':' :: ' ' :: '"' ::
          (escapeString u ++ '"' :: '\x7d' :: ',' :: ' ' :: '"' ::
            (escapeString (chars "payload") ++ '"' :: ':' :: ' ' :: '"' ::
              (escapeString (b64EncodeUrlsafe bs) ++ '"' :: ',' :: ' ' :: '"' ::
                (escapeString (chars "retries") ++ '"' :: ':' :: ' ' ::
                  (natChars n ++ ['\x7d'])))))))) =
      some (.obj (.cons (chars "service") (.obj (.cons (chars "url") (.str u) .nil))
        (.cons (chars "payload") (.str (b64EncodeUrlsafe bs))
          (.cons (chars "retries") (.num (n : Int)) .nil))), []) := by
  have hB : ∀ c ∈ b64EncodeUrlsafe bs, printableAscii c :=
    fun c hc => plain_printable c (b64Encode_plain bs c hc)
  -- the retries member and the final closing brace
  have h9 : parseMembersRest (f + 8) ['\x7d'] = some (.nil, []) :=
    parseMembersRest_close (f + 7) _ _ (by rw [skipWs_cons_neg _ _ (by decide)])
  have hnum : parseValue (f + 8) (' ' :: (natChars n ++ ['\x7d'])) =
      some (.num (n : Int), ['\x7d']) :=
    parse_num_value n (f + 7) _ _
      (by rw [skipWs_ws_cons _ _ (by decide)]; exact skipWs_natChars n _)
      (by decide) ⟨by decide, by decide, by decide⟩
  have hmr2 : parseMembersRest (f + 9)
      (',' :: ' ' :: '"' :: (escapeString (chars "retries") ++ '"' :: ':' :: ' ' ::
        (natChars n ++ ['\x7d']))) =
      some (.cons (chars "retries") (.num (n : Int)) .nil, []) := by
    rw [parseMembersRest_comma (f + 8) _ _ _
      (skipWs_cons_neg _ _ (by decide))
      (by rw [skipWs_ws_cons _ _ (by decide), skipWs_cons_neg _ _ (by decide)])]
    rw [parseStringBody_escape _ _ (by decide)]
    simp only [Option.some_bind]
    rw [expectColon_cons]
    simp only [Option.some_bind]
    rw [hnum]
    simp only [Option.some_bind]
    rw [h9]
    rfl
  -- the payload member
  have hstr_pay : parseValue (f + 9)
      (' ' :: '"' :: (escapeString (b64EncodeUrlsafe bs) ++ '"' :: ',' :: ' ' :: '"' ::
        (escapeString (chars "retries") ++ '"' :: ':' :: ' ' :: (natChars n ++ ['\x7d'])))) =
      some (.str (b64EncodeUrlsafe bs),
        ',' :: ' ' :: '"' :: (escapeString (chars "retries") ++ '"' :: ':' :: ' ' ::
          (natChars n ++ ['\x7d']))) :=
    parse_str_value _ hB (f + 8) _ _
      (by rw [skipWs_ws_cons _ _ (by decide), skipWs_cons_neg _ _ (by decide)])
  have hmr1 : parseMembersRest (f + 10)
      (',' :: ' ' :: '"' :: (escapeString (chars "payload") ++ '"' :: ':' :: ' ' :: '"' ::
        (escapeString (b64EncodeUrlsafe bs) ++ '"' :: ',' :: ' ' :: '"' ::
          (escapeString (chars "retries") ++ '"' :: ':' :: ' ' :: (natChars n ++ ['\x7d']))))) =
      some (.cons (chars "payload") (.str (b64EncodeUrlsafe bs))
        (.cons (chars "retries") (.num (n : Int)) .nil), []) := by
    rw [parseMembersRest_comma (f + 9) _ _ _
      (skipWs_cons_neg _ _ (by decide))
      (by rw [skipWs_ws_cons _ _ (by decide), skipWs_cons_neg _ _ (by decide)])]
    rw [parseStringBody_escape _ _ (by decide)]
    simp only [Option.some_bind]
    rw [expectColon_cons]
    simp only [Option.some_bind]
    rw [hstr_pay]
    simp only [Option.some_bind]
    rw [hmr2]
    rfl
  -- the inner service object
  have hstr_url : parseValue (f + 8)
      (' ' :: '"' :: (escapeString u ++ '"' :: '\x7d' :: ',' :: ' ' :: '"' ::
        (escapeString (chars "payload") ++ '"' :: ':' :: ' ' :: '"' ::
          (escapeString (b64EncodeUrlsafe bs) ++ '"' :: ',' :: ' ' :: '"' ::
            (escapeString (chars "retries") ++ '"' :: ':' :: ' ' :: (natChars n ++ ['\x7d'])))))) =
      some (.str u,
        '\x7d' :: ',' :: ' ' :: '"' :: (escapeString (chars "payload") ++ '"' :: ':' :: ' ' :: '"' ::
          (escapeString (b64EncodeUrlsafe bs) ++ '"' :: ',' :: ' ' :: '"' ::
            (escapeString (chars "retries") ++ '"' :: ':' :: ' ' :: (natChars n ++ ['\x7d']))))) :=
    parse_str_value u hu (f + 7) _ _
      (by rw [skipWs_ws_cons _ _ (by decide), skipWs_cons_neg _ _ (by decide)])
  have hmrIn : parseMembersRest (f + 8)
      ('\x7d' :: ',' :: ' ' :: '"' :: (escapeString (chars "payload") ++ '"' :: ':' :: ' ' :: '"' ::
        (escapeString (b64EncodeUrlsafe bs) ++ '"' :: ',' :: ' ' :: '"' ::
          (escapeString (chars "retries") ++ '"' :: ':' :: ' ' :: (natChars n ++ ['\x7d']))))) =
      some (.nil,
        ',' :: ' ' :: '"' :: (escapeString (chars "payload") ++ '"' :: ':' :: ' ' :: '"' ::
          (escapeString (b64EncodeUrlsafe bs) ++ '"' :: ',' :: ' ' :: '"' ::
            (escapeString (chars "retries") ++ '"' :: ':' :: ' ' :: (natChars n ++ ['\x7d']))))) :=
    parseMembersRest_close (f + 7) _ _ (by rw [skipWs_cons_neg _ _ (by decide)])
  have hobj_in : parseValue (f + 10)
      (' ' :: '\x7b' :: '"' :: (escapeString (chars "url") ++ '"' :: ':' :: ' ' :: '"' ::
        (escapeString u ++ '"' :: '\x7d' :: ',' :: ' ' :: '"' ::
          (escapeString (chars "payload") ++ '"' :: ':' :: ' ' :: '"' ::
            (escapeString (b64EncodeUrlsafe bs) ++ '"' :: ',' :: ' ' :: '"' ::
              (escapeString (chars "retries") ++ '"' :: ':' :: ' ' :: (natChars n ++ ['\x7d']))))))) =
      some (.obj (.cons (chars "url") (.str u) .nil),
        ',' :: ' ' :: '"' :: (escapeString (chars "payload") ++ '"' :: ':' :: ' ' :: '"' ::
          (escapeString (b64EncodeUrlsafe bs) ++ '"' :: ',' :: ' ' :: '"' ::
            (escapeString (chars "retries") ++ '"' :: ':' :: ' ' :: (natChars n ++ ['\x7d']))))) := by
    rw [parseValue_obj (f + 9) _ _
      (by rw [skipWs_ws_cons _ _ (by decide), skipWs_cons_neg _ _ (by decide)])]
    rw [parseMembers_key (f + 8) _ _ (skipWs_cons_neg _ _ (by decide))]
    rw [parseStringBody_escape _ _ (by decide)]
    simp only [Option.some_bind]
    rw [expectColon_cons]
    simp only [Option.some_bind]
    rw [hstr_url]
    simp only [Option.some_bind]
    rw [hmrIn]
    rfl
  -- the outer object
  rw [parseValue_obj (f + 11) _ _ (by rw [skipWs_cons_neg _ _ (by decide)])]
  rw [parseMembers_key (f + 10) _ _ (skipWs_cons_neg _ _ (by decide))]
  rw [parseStringBody_escape _ _ (by decide)]
  simp only [Option.some_bind]
  rw [expectColon_cons]
  simp only [Option.some_bind]
  rw [hobj_in]
  simp only [Option.some_bind]
  rw [hmr1]
  rfl

lemma jsonDumps_outbound (u : List Char) (bs : List Nat) (n : Int) :
    jsonDumps (OutboundPayload.toJson ⟨⟨u⟩, bs, n⟩) =
      '\x7b' :: '"' :: (escapeString (chars "service") ++ '"' :: ':' :: ' ' :: '\x7b' :: '"' ::
        (escapeString (chars "url") ++ '"' :: ':' :: ' ' :: '"' ::
          (escapeString u ++ '"' :: '\x7d' :: ',' :: ' ' :: '"' ::
            (escapeString (chars "payload") ++ '"' :: ':' :: ' ' :: '"' ::
              (escapeString (b64EncodeUrlsafe bs) ++ '"' :: ',' :: ' ' :: '"' ::
                (escapeString (chars "retries") ++ '"' :: ':' :: ' ' ::
                  (intChars n ++ ['\x7d'])))))))  := by
  rw [OutboundPayload.toJson]
  simp only [jsonDumps, jsonDumpsObj]
  simp [List.append_assoc]

lemma escChar_ascii (c : Char) (h : printableAscii c) : ∀ d ∈ escChar c, d.toNat < 0x80 := by
  intro d hd
  by_cases hq : c = '"'
  · subst hq
    have : escChar '"' = ['\\', '"'] := by decide
    rw [this] at hd
    rcases List.mem_cons.mp hd with rfl | hd2
    · decide
    · simp at hd2; subst hd2; decide
  · by_cases hb : c = '\\'
    · subst hb
      have : escChar '\\' = ['\\', '\\'] := by decide
      rw [this] at hd
      rcases List.mem_cons.mp hd with rfl | hd2
      · decide
      · simp at hd2; subst hd2; decide
    · rw [escChar_plain c ⟨hq, hb, h⟩] at hd
      simp at hd
      subst hd
      exact printable_ascii _ h

lemma escapeString_ascii (s : List Char) (h : ∀ c ∈ s, printableAscii c) :
    ∀ d ∈ escapeString s, d.toNat < 0x80 := by
  intro d hd
  rw [escapeString] at hd
  rw [List.mem_flatten] at hd
  obtain ⟨l, hl, hdl⟩ := hd
  rw [List.mem_map] at hl
  obtain ⟨c, hc, rfl⟩ := hl
  exact escChar_ascii c (h c hc) d hdl

lemma natCharsGo_ascii : ∀ f n, ∀ c ∈ natCharsGo f n, c.toNat < 0x80 := by
  intro f
  induction f with
  | zero => intro n c hc; simp [natCharsGo] at hc
  | succ f ih =>
    intro n c hc
    rw [natCharsGo] at hc
    by_cases h0 : n = 0
    · simp [h0] at hc
    · rw [if_neg h0] at hc
      rcases List.mem_append.mp hc with hmem | hmem
      · exact ih _ _ hmem
      · have : c = Char.ofNat (48 + n % 10) := by simpa using hmem
        rw [this, digitChar_toNat _ (by omega)]
        omega

lemma natChars_ascii (n : Nat) : ∀ c ∈ natChars n, c.toNat < 0x80 := by
  intro c hc
  rw [natChars] at hc
  by_cases h : n = 0
  · simp [h] at hc; subst hc; decide
  · rw [if_neg h] at hc
    exact natCharsGo_ascii _ _ _ hc

lemma ascii_append {l1 l2 : List Char} (h1 : ∀ c ∈ l1, c.toNat < 0x80)
    (h2 : ∀ c ∈ l2, c.toNat < 0x80) : ∀ c ∈ l1 ++ l2, c.toNat < 0x80 := by
  intro c hc
  rcases List.mem_append.mp hc with h | h
  · exact h1 c h
  · exact h2 c h

lemma ascii_cons {c : Char} {l : List Char} (hc : c.toNat < 0x80)
    (h : ∀ d ∈ l, d.toNat < 0x80) : ∀ d ∈ c :: l, d.toNat < 0x80 := by
  intro d hd
  rcases List.mem_cons.mp hd with rfl | hd2
  · exact hc
  · exact h d hd2

lemma from_bytes_parsed (bs : List Nat) (cs : List Char) (j : Json)
    (h1 : utf8Decode bs = some cs) (h2 : parseJsonTop cs = some j) :
    OutboundPayload.from_bytes bs = outboundOfJson j := by
  rw [OutboundPayload.from_bytes, h1]
  simp only [h2]

lemma b64_all_ascii (bs : List Nat) :
    (b64EncodeUrlsafe bs).all (fun c => c.toNat < 0x80) = true := by
  rw [List.all_eq_true]
  intro c hc
  simpa using plain_ascii c (b64Encode_plain bs c hc)

lemma decode_payload_encode (bs : List Nat) (hbs : ∀ b ∈ bs, b < 256) :
    decode_payload_to_bytes (.str (b64EncodeUrlsafe bs)) = .ok bs := by
  rw [decode_payload_to_bytes, asciiEncode, if_pos (b64_all_ascii bs)]
  simp only [b64DecodeCore_encode bs hbs]

lemma outboundOfJson_toJson (u : List Char) (bs : List Nat) (n : Int)
    (hbs : ∀ b ∈ bs, b < 256) :
    outboundOfJson (OutboundPayload.toJson ⟨⟨u⟩, bs, n⟩) = .ok ⟨⟨u⟩, bs, n⟩ := by
  rw [OutboundPayload.toJson, outboundOfJson]
  simp only [objLookup, if_pos rfl, if_neg (show chars "service" ≠ chars "url" from by decide)]
  simp only [if_true, if_pos rfl,
    if_neg (show ¬ chars "service" = chars "payload" from by decide),
    if_neg (show ¬ chars "service" = chars "retries" from by decide),
    if_neg (show ¬ chars "payload" = chars "retries" from by decide),
    objLookup, decode_payload_encode bs hbs]

lemma outbound_roundtrip_main (u : List Char) (bs : List Nat) (n : Nat)
    (hu : ∀ c ∈ u, printableAscii c) (hbs : ∀ b ∈ bs, b < 256) :
    OutboundPayload.from_bytes (OutboundPayload.to_bytes ⟨⟨u⟩, bs, (n : Int)⟩) =
      .ok ⟨⟨u⟩, bs, (n : Int)⟩ := by
  have hdump : jsonDumps (OutboundPayload.toJson ⟨⟨u⟩, bs, (n : Int)⟩) =
      '\x7b' :: '"' :: (escapeString (chars "service") ++ '"' :: ':' :: ' ' :: '\x7b' :: '"' ::
        (escapeString (chars "url") ++ '"' :: ':' :: ' ' :: '"' ::
          (escapeString u ++ '"' :: '\x7d' :: ',' :: ' ' :: '"' ::
            (escapeString (chars "payload") ++ '"' :: ':' :: ' ' :: '"' ::
              (escapeString (b64EncodeUrlsafe bs) ++ '"' :: ',' :: ' ' :: '"' ::
                (escapeString (chars "retries") ++ '"' :: ':' :: ' ' ::
                  (natChars n ++ ['\x7d']))))))) := by
    rw [jsonDumps_outbound, intChars_natCast]
  have hascii : ∀ c ∈ jsonDumps (OutboundPayload.toJson ⟨⟨u⟩, bs, (n : Int)⟩), c.toNat < 0x80 := by
    rw [hdump]
    exact (ascii_cons (by decide) (ascii_cons (by decide) (ascii_append (escapeString_ascii _ (by decide)) (ascii_cons (by decide) (ascii_cons (by decide) (ascii_cons (by decide) (ascii_cons (by decide) (ascii_cons (by decide) (ascii_append (escapeString_ascii _ (by decide)) (ascii_cons (by decide) (ascii_cons (by decide) (ascii_cons (by decide) (ascii_cons (by decide) (ascii_append (escapeString_ascii u hu) (ascii_cons (by decide) (ascii_cons (by decide) (ascii_cons (by decide) (ascii_cons (by decide) (ascii_cons (by decide) (ascii_append (escapeString_ascii _ (by decide)) (ascii_cons (by decide) (ascii_cons (by decide) (ascii_cons (by decide) (ascii_cons (by decide) (ascii_append (escapeString_ascii _ (fun c2 hc2 => plain_printable c2 (b64Encode_plain bs c2 hc2))) (ascii_cons (by decide) (ascii_cons (by decide) (ascii_cons (by decide) (ascii_cons (by decide) (ascii_append (escapeString_ascii _ (by decide)) (ascii_cons (by decide) (ascii_cons (by decide) (ascii_cons (by decide) (ascii_append (natChars_ascii n) (ascii_cons (by decide) (fun d hd => absurd hd (List.not_mem_nil d)))))))))))))))))))))))))))))))))))))
  have hlen : 11 ≤ (jsonDumps (OutboundPayload.toJson ⟨⟨u⟩, bs, (n : Int)⟩)).length := by
    rw [hdump]
    simp [List.length_append]
    omega
  have htrace := parse_outbound_trace u bs n hu
    ((jsonDumps (OutboundPayload.toJson ⟨⟨u⟩, bs, (n : Int)⟩)).length - 11)
  rw [← hdump] at htrace
  have htop : parseJsonTop (jsonDumps (OutboundPayload.toJson ⟨⟨u⟩, bs, (n : Int)⟩)) =
      some (OutboundPayload.toJson ⟨⟨u⟩, bs, (n : Int)⟩) := by
    rw [parseJsonTop]
    have hfe : (jsonDumps (OutboundPayload.toJson ⟨⟨u⟩, bs, (n : Int)⟩)).length + 1 =
        ((jsonDumps (OutboundPayload.toJson ⟨⟨u⟩, bs, (n : Int)⟩)).length - 11) + 12 := by
      omega
    rw [hfe, htrace]
    rfl
  rw [OutboundPayload.to_bytes,
    from_bytes_parsed _ _ _ (utf8Decode_utf8Encode_ascii _ hascii) htop,
    outboundOfJson_toJson u bs (n : Int) hbs]

lemma strsOf_map (kids : List (List Char)) : strsOf (kids.map Json.str) = some kids := by
  induction kids with
  | nil => rfl
  | cons k ks ih => simp [strsOf, ih]

lemma joinComma_strs (kids : List (List Char)) :
    joinComma (kids.map Json.str) = .ok (List.intercalate [','] kids) := by
  rw [joinComma, strsOf_map]

theorem objLookup_objSet : ∀ (o : JsonObj) (k : List Char) (v : Json),
    objLookup (objSet o k v) k = some v
  | .nil, k, v => by simp [objSet, objLookup]
  | .cons k2 v2 tl, k, v => by
    rw [objSet]
    by_cases h : k2 = k
    · rw [if_pos h, objLookup, if_pos h]
    · rw [if_neg h, objLookup, if_neg h]
      exact objLookup_objSet tl k v

lemma recipients_ok (body : List Nat) (w inner : Json) (prot : List Char)
    (pb : List Nat) (pcs : List Char) (rs : JsonArr)
    (h1 : loads body = .ok w)
    (h2 : getItem w (chars "protected") = .ok (.str prot))
    (h3 : b64_to_bytes_urlsafe prot = .ok pb)
    (h4 : asciiDecode pb = some pcs)
    (h5 : parseJsonTop pcs = some inner)
    (h6 : getItem inner (chars "recipients") = .ok (.arr rs)) :
    _recipients_from_packed_message body = kidsOf rs := by
  rw [_recipients_from_packed_message, h1]
  simp only [h2, h3, h4, h5, h6]

/-! ## Claim theorems -/

/-- C2 (corrected): for every HTTP request whose body is a JSON envelope
with a `protected` field that URL-safe-base64-decodes (after padding
repair) to JSON containing a `recipients` list of entries with
`header.kid` strings whose comma-joined encoding is non-empty, the relay
publishes the original raw body bytes unmodified to the inbound topic
with the broker key equal to the kids joined by commas and encoded as
bytes, and responds 200 with an empty body after broker
acknowledgement. -/
theorem c2_relay_publishes (body : List Nat) (w inner : Json) (prot : List Char)
    (pb : List Nat) (pcs : List Char) (rs : JsonArr) (kids : List (List Char))
    (h1 : loads body = .ok w)
    (h2 : getItem w (chars "protected") = .ok (.str prot))
    (h3 : b64_to_bytes_urlsafe prot = .ok pb)
    (h4 : asciiDecode pb = some pcs)
    (h5 : parseJsonTop pcs = some inner)
    (h6 : getItem inner (chars "recipients") = .ok (.arr rs))
    (h7 : kidsOf rs = .ok (kids.map Json.str))
    (h8 : utf8Encode (List.intercalate [','] kids) ≠ []) :
    receive_message (.ok ()) body =
      ⟨some ⟨INBOUND_TOPIC, body, some (utf8Encode (List.intercalate [','] kids))⟩,
        .ok (200, [])⟩ := by
  have hrec : _recipients_from_packed_message body = .ok (kids.map Json.str) :=
    (recipients_ok body w inner prot pb pcs rs h1 h2 h3 h4 h5 h6).trans h7
  rw [receive_message, hrec]
  simp only [joinComma_strs, if_neg h8]

/-- C2 counterexample: a body whose envelope has a non-empty `recipients`
list with a (single, empty-string) `header.kid` string, on which the
relay raises `IndexError` in the log line instead of publishing — so the
claim as stated (every non-empty recipients list with string kids is
published with a 200 response) is false. -/
theorem c2_relay_publishes_cex :
    _recipients_from_packed_message bodyKidEmpty = .ok [Json.str []] ∧
    receive_message (.ok ()) bodyKidEmpty = ⟨none, .error .indexError⟩ ∧
    (receive_message (.ok ()) bodyKidEmpty).published = none :=
  ⟨rfl, rfl, rfl⟩

/-- C2 witness. -/
theorem c2_relay_publishes_witness :
    receive_message (.ok ()) bodyKidsAB =
      ⟨some ⟨INBOUND_TOPIC, bodyKidsAB, some (utf8Encode (chars "A,B"))⟩, .ok (200, [])⟩ := by
  have h := c2_relay_publishes bodyKidsAB
    (.obj (.cons (chars "protected")
      (.str (b64EncodeUrlsafe (utf8Encode innerKidsAB))) .nil))
    (.obj (.cons (chars "recipients")
      (.arr (.cons (.obj (.cons (chars "header") (.obj (.cons (chars "kid") (.str (chars "A")) .nil)) .nil))
        (.cons (.obj (.cons (chars "header") (.obj (.cons (chars "kid") (.str (chars "B")) .nil)) .nil))
          .nil))) .nil))
    (b64EncodeUrlsafe (utf8Encode innerKidsAB))
    (utf8Encode innerKidsAB) innerKidsAB
    (.cons (.obj (.cons (chars "header") (.obj (.cons (chars "kid") (.str (chars "A")) .nil)) .nil))
      (.cons (.obj (.cons (chars "header") (.obj (.cons (chars "kid") (.str (chars "B")) .nil)) .nil))
        .nil))
    [chars "A", chars "B"]
    rfl rfl rfl rfl rfl rfl rfl (by decide)
  exact h

/-- C3 (corrected): for every request body that is valid JSON but lacks
the `protected` field, the relay fails — with a `KeyError`, not the
`ValueError` (InvalidInput) class raised for a non-JSON body — and no
broker publish is attempted. -/
theorem c3_missing_protected (send : Except PyErr Unit) (body : List Nat) (kvs : JsonObj)
    (h1 : loads body = .ok (.obj kvs))
    (h2 : objLookup kvs (chars "protected") = none) :
    receive_message send body = ⟨none, .error (.keyError (chars "protected"))⟩ := by
  have hrec : _recipients_from_packed_message body =
      .error (.keyError (chars "protected")) := by
    rw [_recipients_from_packed_message, h1]
    simp only [getItem, h2]
  rw [receive_message, hrec]

/-- C3 counterexample: the error class for a missing `protected` field is
`KeyError`, which is not the `ValueError` class (`InvalidInput`) raised
for a non-JSON body, contradicting the claim's "same error class". -/
theorem c3_missing_protected_cex :
    receive_message (.ok ()) bodyNoProt = ⟨none, .error (.keyError (chars "protected"))⟩ ∧
    receive_message (.ok ()) bodyNotJson =
      ⟨none, .error (.valueError "Invalid packed message")⟩ ∧
    PyErr.keyError (chars "protected") ≠ PyErr.valueError "Invalid packed message" :=
  ⟨rfl, rfl, by decide⟩

/-- C3 witness. -/
theorem c3_missing_protected_witness :
    loads bodyNoProt = .ok (.obj (.cons (chars "foo") (.num 1) .nil)) ∧
    objLookup (.cons (chars "foo") (.num 1) .nil) (chars "protected") = none ∧
    receive_message (.ok ()) bodyNoProt = ⟨none, .error (.keyError (chars "protected"))⟩ :=
  ⟨rfl, rfl, c3_missing_protected (.ok ()) bodyNoProt (.cons (chars "foo") (.num 1) .nil) rfl rfl⟩

/-- C9: for every request body whose `recipients` list is empty (so the
joined recipient-key byte string is empty), `receive_message` raises
`IndexError` while formatting the info log line (indexing the first byte
of the empty key) and fails the request before any broker publish is
attempted; nothing is ever published with an empty key. -/
theorem c9_empty_recipients (send : Except PyErr Unit) (body : List Nat) (w inner : Json)
    (prot : List Char) (pb : List Nat) (pcs : List Char)
    (h1 : loads body = .ok w)
    (h2 : getItem w (chars "protected") = .ok (.str prot))
    (h3 : b64_to_bytes_urlsafe prot = .ok pb)
    (h4 : asciiDecode pb = some pcs)
    (h5 : parseJsonTop pcs = some inner)
    (h6 : getItem inner (chars "recipients") = .ok (.arr .nil)) :
    receive_message send body = ⟨none, .error .indexError⟩ := by
  have hrec : _recipients_from_packed_message body = .ok [] :=
    recipients_ok body w inner prot pb pcs .nil h1 h2 h3 h4 h5 h6
  rw [receive_message, hrec]
  simp only [joinComma, strsOf, utf8Encode, if_pos rfl]
  exact rfl

/-- C9 witness. -/
theorem c9_empty_recipients_witness :
    receive_message (.ok ()) bodyNoRecips = ⟨none, .error .indexError⟩ :=
  c9_empty_recipients (.ok ()) bodyNoRecips
    (.obj (.cons (chars "protected") (.str (b64EncodeUrlsafe (utf8Encode innerNoRecips))) .nil))
    (.obj (.cons (chars "recipients") (.arr .nil) .nil))
    (b64EncodeUrlsafe (utf8Encode innerNoRecips))
    (utf8Encode innerNoRecips) innerNoRecips
    rfl rfl rfl rfl rfl rfl

/-- C1: for every valid `OutboundPayload` `p` (any `service.url` made of
printable characters — every URL is —, any payload bytes, any
non-negative `retries`), `from_bytes (to_bytes p)` yields an instance
whose `service.url`, `payload` bytes and `retries` equal `p`'s, and
whose re-derived `endpoint_scheme` equals `p`'s `endpoint_scheme`. -/
theorem c1_outbound_roundtrip (p : OutboundPayload)
    (hurl : ∀ c ∈ p.service.url, printableAscii c)
    (hpay : ∀ b ∈ p.payload, b < 256)
    (hret : 0 ≤ p.retries) :
    ∃ q : OutboundPayload,
      OutboundPayload.from_bytes (OutboundPayload.to_bytes p) = .ok q ∧
      q.service.url = p.service.url ∧ q.payload = p.payload ∧ q.retries = p.retries ∧
      q.endpoint_scheme = p.endpoint_scheme := by
  obtain ⟨⟨u⟩, bs, r⟩ := p
  obtain ⟨n, rfl⟩ : ∃ n : Nat, r = (n : Int) := ⟨r.toNat, (Int.toNat_of_nonneg hret).symm⟩
  exact ⟨_, outbound_roundtrip_main u bs n hurl hpay, rfl, rfl, rfl, rfl⟩

/-- C1 witness. -/
theorem c1_outbound_roundtrip_witness :
    (∀ c ∈ opSample.service.url, printableAscii c) ∧
    (∀ b ∈ opSample.payload, b < 256) ∧ 0 ≤ opSample.retries ∧
    ∃ q : OutboundPayload,
      OutboundPayload.from_bytes (OutboundPayload.to_bytes opSample) = .ok q ∧
      q.service.url = opSample.service.url ∧ q.payload = opSample.payload ∧
      q.retries = opSample.retries ∧ q.endpoint_scheme = opSample.endpoint_scheme :=
  ⟨by decide, by decide, by decide,
    c1_outbound_roundtrip opSample (by decide) (by decide) (by decide)⟩

/-- C4: in the fixed-pattern bridge's `handle_event`, for every bus event
the destination broker topic equals the event topic with every `::`
replaced by `-` (in particular `acapy::record::present_proof::presentation_received`
maps to `acapy-record-present_proof-presentation_received`), and the
published JSON payload is the event's payload mapping extended with a
`wallet_id` field holding the profile's `wallet.id` setting (a JSON
`null` when unset), published with no key. -/
theorem c4_fixed_topic_payload (walletId : Option (List Char)) (ev : Event)
    (send : Except PyErr Unit) :
    (∃ r, kq_handle_event walletId ev send = .ok r ∧
      r.published = some ⟨replacePy ev.topic (chars "::") (chars "-"),
        utf8Encode (jsonDumps (.obj (objSet ev.payload (chars "wallet_id") (optStrJson walletId)))),
        none⟩) ∧
    replacePy (chars "acapy::record::present_proof::presentation_received")
        (chars "::") (chars "-") =
      chars "acapy-record-present_proof-presentation_received" := by
  refine ⟨?_, by decide⟩
  cases send with
  | ok _ => exact ⟨_, rfl, rfl⟩
  | error e => exact ⟨_, rfl, rfl⟩

/-- C5: in the fixed-pattern bridge's inbound consumption loop, when
every broker record's value parses as JSON, each record is re-injected
into the event bus under the topic obtained by replacing every `-` in
the broker topic with `::` (in particular `acapy-inbound-message`
becomes `acapy::inbound::message`), with the record's parsed value as
the event payload, and records are processed sequentially in delivery
order (the notifications are exactly the records, in order). -/
theorem c5_consume_order (rs : List KRecord) (js : List Json)
    (h : loadsAll rs = .ok js) :
    consumeLoop rs =
      (List.zipWith (fun r j => (replacePy r.topic (chars "-") (chars "::"), j)) rs js, none) ∧
    replacePy (chars "acapy-inbound-message") (chars "-") (chars "::") =
      chars "acapy::inbound::message" := by
  refine ⟨?_, by decide⟩
  induction rs generalizing js with
  | nil =>
    rw [loadsAll] at h
    cases h
    rfl
  | cons r rest ih =>
    rw [loadsAll] at h
    cases hl : loads r.value with
    | error e => rw [hl] at h; cases h
    | ok j =>
      rw [hl] at h
      cases hrest : loadsAll rest with
      | error e => rw [hrest] at h; cases h
      | ok tail =>
        rw [hrest] at h
        cases h
        rw [consumeLoop, hl, ih tail hrest]
        rfl

/-- C5 witness. -/
theorem c5_consume_order_witness :
    consumeLoop krSample =
      (List.zipWith (fun r j => (replacePy r.topic (chars "-") (chars "::"), j)) krSample
        [.obj (.cons (chars "a") (.num 1) .nil), .obj (.cons (chars "b") (.num 2) .nil)],
        none) ∧
    replacePy (chars "acapy-inbound-message") (chars "-") (chars "::") =
      chars "acapy::inbound::message" :=
  c5_consume_order krSample
    [.obj (.cons (chars "a") (.num 1) .nil), .obj (.cons (chars "b") (.num 2) .nil)] rfl

/-- C10: the fixed-pattern bridge's `handle_event` mutates the event's
payload mapping in place by assigning the `wallet_id` key before
publishing — afterwards the event's own payload mapping has `wallet_id`
bound — whereas the configurable bridge's `handle_event` builds a fresh
payload object and leaves `event.payload` unmodified. -/
theorem c10_payload_mutation (walletId : Option (List Char)) (ev : Event)
    (send : Except PyErr Unit) (evm : EventWM) (cfg : Option EventsConfig)
    (send2 : Except PyErr Unit) :
    (∃ r, kq_handle_event walletId ev send = .ok r ∧
      r.eventPayload = objSet ev.payload (chars "wallet_id") (optStrJson walletId) ∧
      objLookup r.eventPayload (chars "wallet_id") = some (optStrJson walletId)) ∧
    (∃ r2, ev_handle_event walletId evm cfg send2 = .ok r2 ∧ r2.eventPayload = evm.payload) := by
  constructor
  · cases send with
    | ok _ => exact ⟨_, rfl, rfl, objLookup_objSet _ _ _⟩
    | error e => exact ⟨_, rfl, rfl, objLookup_objSet _ _ _⟩
  · cases hl : lookupMap ((cfg.getD EventsConfig.default)).topic_maps evm.patternSource with
    | none =>
      exact ⟨⟨evm.payload, ev_payload walletId evm, none, some (.keyError evm.patternSource)⟩,
        by simp only [ev_handle_event, hl], rfl⟩
    | some tmpl =>
      cases ht : templateSubstitute tmpl (objToKwargs (ev_payload walletId evm)) with
      | error e =>
        exact ⟨⟨evm.payload, ev_payload walletId evm, none, some e⟩,
          by simp only [ev_handle_event, hl, ht], rfl⟩
      | ok kt =>
        cases send2 with
        | ok _ =>
          exact ⟨⟨evm.payload, ev_payload walletId evm,
            some ⟨kt, utf8Encode (jsonDumps (.obj (ev_payload walletId evm))), walletKey walletId⟩,
            none⟩, by simp only [ev_handle_event, hl, ht], rfl⟩
        | error e =>
          exact ⟨⟨evm.payload, ev_payload walletId evm,
            some ⟨kt, utf8Encode (jsonDumps (.obj (ev_payload walletId evm))), walletKey walletId⟩,
            some e⟩, by simp only [ev_handle_event, hl, ht], rfl⟩

/-- C6: in the configurable bridge's `handle_event` (with the
spec-modelled `EventsConfig`), when a message is built (topic-map entry
found and template rendered), an absent `wallet.id` setting gives a
payload whose `wallet_id` field is the literal string `"base"` while the
broker message carries no key; a present non-empty `wallet.id` gives a
payload `wallet_id` equal to it and a broker key equal to its encoded
bytes. -/
theorem c6_wallet_default_key (walletId : Option (List Char)) (ev : EventWM)
    (cfg : EventsConfig) (send : Except PyErr Unit) (tmpl kt : List Char)
    (h1 : lookupMap cfg.topic_maps ev.patternSource = some tmpl)
    (h2 : templateSubstitute tmpl (objToKwargs (ev_payload walletId ev)) = .ok kt) :
    ∃ r m, ev_handle_event walletId ev (some cfg) send = .ok r ∧ r.published = some m ∧
      ((walletId = none →
          objLookup r.builtPayload (chars "wallet_id") = some (.str (chars "base")) ∧
          m.key = none) ∧
       (∀ s, walletId = some s → s ≠ [] →
          objLookup r.builtPayload (chars "wallet_id") = some (.str s) ∧
          m.key = some (utf8Encode s))) := by
  have hparts : (walletId = none →
        objLookup (ev_payload walletId ev) (chars "wallet_id") = some (.str (chars "base")) ∧
        walletKey walletId = none) ∧
      (∀ s, walletId = some s → s ≠ [] →
        objLookup (ev_payload walletId ev) (chars "wallet_id") = some (.str s) ∧
        walletKey walletId = some (utf8Encode s)) := by
    constructor
    · rintro rfl
      exact ⟨rfl, rfl⟩
    · rintro s rfl hne
      constructor
      · simp [ev_payload, objLookup, walletOr, hne]
      · simp [walletKey, hne]
  cases send with
  | ok _ =>
    exact ⟨⟨ev.payload, ev_payload walletId ev,
      some ⟨kt, utf8Encode (jsonDumps (.obj (ev_payload walletId ev))), walletKey walletId⟩,
      none⟩,
      ⟨kt, utf8Encode (jsonDumps (.obj (ev_payload walletId ev))), walletKey walletId⟩,
      by simp only [ev_handle_event, Option.getD_some, h1, h2], rfl, hparts⟩
  | error e =>
    exact ⟨⟨ev.payload, ev_payload walletId ev,
      some ⟨kt, utf8Encode (jsonDumps (.obj (ev_payload walletId ev))), walletKey walletId⟩,
      some e⟩,
      ⟨kt, utf8Encode (jsonDumps (.obj (ev_payload walletId ev))), walletKey walletId⟩,
      by simp only [ev_handle_event, Option.getD_some, h1, h2], rfl, hparts⟩

/-- C6 witness. -/
theorem c6_wallet_default_key_witness :
    ∃ r m, ev_handle_event none evConnActive (some cfgConn) (.ok ()) = .ok r ∧
      r.published = some m ∧
      ((none = (none : Option (List Char)) →
          objLookup r.builtPayload (chars "wallet_id") = some (.str (chars "base")) ∧
          m.key = none) ∧
       (∀ s, (none : Option (List Char)) = some s → s ≠ [] →
          objLookup r.builtPayload (chars "wallet_id") = some (.str s) ∧
          m.key = some (utf8Encode s))) :=
  c6_wallet_default_key none evConnActive cfgConn (.ok ()) tmplCategoryState
    (chars "connections-active") rfl rfl

/-- C7 (corrected): in the configurable bridge, for every event whose
topic is `acapy::record::connections::active`, whose payload's `state`
field is the string `"active"`, and whose matched pattern maps to the
template `$\x7bcategory\x7d-$\x7bstate\x7d`, the rendered destination
broker topic is `connections-active` (the `state` placeholder is filled
from the event payload, not from the topic). -/
theorem c7_template_category_state (walletId : Option (List Char)) (ev : EventWM)
    (cfg : EventsConfig) (send : Except PyErr Unit)
    (htopic : ev.topic = chars "acapy::record::connections::active")
    (hstate : objLookup ev.payload (chars "state") = some (.str (chars "active")))
    (hmap : lookupMap cfg.topic_maps ev.patternSource = some tmplCategoryState) :
    ∃ r m, ev_handle_event walletId ev (some cfg) send = .ok r ∧ r.published = some m ∧
      m.topic = chars "connections-active" := by
  have hpl : ev_payload walletId ev =
      .cons (chars "wallet_id") (.str (walletOr walletId))
        (.cons (chars "state") (.str (chars "active"))
          (.cons (chars "topic") (.str (chars "acapy::record::connections::active"))
            (.cons (chars "category") (.str (chars "connections"))
              (.cons (chars "payload") (.obj ev.payload) .nil)))) := by
    rw [ev_payload, htopic, hstate]
    rfl
  have hsub : templateSubstitute tmplCategoryState (objToKwargs (ev_payload walletId ev)) =
      .ok (chars "connections-active") := by
    rw [hpl]
    rfl
  cases send with
  | ok _ =>
    exact ⟨⟨ev.payload, ev_payload walletId ev,
      some ⟨chars "connections-active",
        utf8Encode (jsonDumps (.obj (ev_payload walletId ev))), walletKey walletId⟩, none⟩,
      ⟨chars "connections-active",
        utf8Encode (jsonDumps (.obj (ev_payload walletId ev))), walletKey walletId⟩,
      by simp only [ev_handle_event, Option.getD_some, hmap, hsub], rfl, rfl⟩
  | error e =>
    exact ⟨⟨ev.payload, ev_payload walletId ev,
      some ⟨chars "connections-active",
        utf8Encode (jsonDumps (.obj (ev_payload walletId ev))), walletKey walletId⟩, some e⟩,
      ⟨chars "connections-active",
        utf8Encode (jsonDumps (.obj (ev_payload walletId ev))), walletKey walletId⟩,
      by simp only [ev_handle_event, Option.getD_some, hmap, hsub], rfl, rfl⟩

/-- C7 counterexample: the same event with no `state` key in its payload
renders the topic `connections-None` (Python's `str(None)`), not
`connections-active` — so the original claim, which asserts the rendered
topic is `connections-active` for every event with that topic, is
false. -/
theorem c7_template_category_state_cex :
    ev_handle_event (some (chars "w1")) evConnNoState (some cfgConn) (.ok ()) =
      .ok ⟨evConnNoState.payload, ev_payload (some (chars "w1")) evConnNoState,
        some ⟨chars "connections-None",
          utf8Encode (jsonDumps (.obj (ev_payload (some (chars "w1")) evConnNoState))),
          some (utf8Encode (chars "w1"))⟩, none⟩ ∧
    chars "connections-None" ≠ chars "connections-active" :=
  ⟨rfl, by decide⟩

/-- C7 witness. -/
theorem c7_template_category_state_witness :
    ∃ r m, ev_handle_event (some (chars "w1")) evConnActive (some cfgConn) (.ok ()) = .ok r ∧
      r.published = some m ∧ m.topic = chars "connections-active" :=
  c7_template_category_state (some (chars "w1")) evConnActive cfgConn (.ok ()) rfl rfl rfl

/-- C8: in both event bridges' `handle_event`, any exception during the
publish attempt is caught and logged and the handler returns normally
(an `.ok` result, nothing propagated to the event bus, no retry); in the
configurable bridge a topic-map lookup miss is logged the same way and
no broker message is sent. -/
theorem c8_failures_swallowed :
    (∀ (walletId : Option (List Char)) (ev : Event) (e : PyErr),
      ∃ r, kq_handle_event walletId ev (.error e) = .ok r ∧ r.logged = some e) ∧
    (∀ (walletId : Option (List Char)) (ev : EventWM) (cfg : Option EventsConfig) (e : PyErr),
      ∃ r, ev_handle_event walletId ev cfg (.error e) = .ok r ∧ r.logged.isSome = true) ∧
    (∀ (walletId : Option (List Char)) (ev : EventWM) (cfg : Option EventsConfig)
        (send : Except PyErr Unit),
      lookupMap (cfg.getD EventsConfig.default).topic_maps ev.patternSource = none →
      ∃ r, ev_handle_event walletId ev cfg send = .ok r ∧ r.published = none ∧
        r.logged = some (.keyError ev.patternSource)) := by
  refine ⟨?_, ?_, ?_⟩
  · intro walletId ev e
    exact ⟨_, rfl, rfl⟩
  · intro walletId ev cfg e
    cases hl : lookupMap (cfg.getD EventsConfig.default).topic_maps ev.patternSource with
    | none =>
      exact ⟨⟨ev.payload, ev_payload walletId ev, none, some (.keyError ev.patternSource)⟩,
        by simp only [ev_handle_event, hl], rfl⟩
    | some tmpl =>
      cases ht : templateSubstitute tmpl (objToKwargs (ev_payload walletId ev)) with
      | error e2 =>
        exact ⟨⟨ev.payload, ev_payload walletId ev, none, some e2⟩,
          by simp only [ev_handle_event, hl, ht], rfl⟩
      | ok kt =>
        exact ⟨⟨ev.payload, ev_payload walletId ev,
          some ⟨kt, utf8Encode (jsonDumps (.obj (ev_payload walletId ev))), walletKey walletId⟩,
          some e⟩, by simp only [ev_handle_event, hl, ht], rfl⟩
  · intro walletId ev cfg send hl
    exact ⟨⟨ev.payload, ev_payload walletId ev, none, some (.keyError ev.patternSource)⟩,
      by simp only [ev_handle_event, hl], rfl, rfl⟩

/-- C8 witness. -/
theorem c8_failures_swallowed_witness :
    (∃ r, kq_handle_event (some (chars "w")) evBasic (.error .kafkaError) = .ok r ∧
      r.logged = some PyErr.kafkaError) ∧
    (∃ r, ev_handle_event none evConnActive (some cfgConn) (.error .kafkaError) = .ok r ∧
      r.logged.isSome = true) ∧
    (∃ r, ev_handle_event none evConnActive none (.ok ()) = .ok r ∧ r.published = none ∧
      r.logged = some (.keyError evConnActive.patternSource)) :=
  ⟨c8_failures_swallowed.1 (some (chars "w")) evBasic .kafkaError,
   c8_failures_swallowed.2.1 none evConnActive (some cfgConn) .kafkaError,
   c8_failures_swallowed.2.2 none evConnActive none (.ok ()) rfl⟩
